import Mathlib

set_option linter.unusedVariables false
set_option linter.unnecessarySeqFocus false

/-! Shallow embedding of the NASM standard scanner (`src/asm/stdscan.c`).

The caller-owned line buffer is a `List Char` holding the characters in
front of the terminating NUL; reading at or past the end of the list
yields the NUL byte, exactly as reading the C string's terminator.
External collaborators declared in headers outside `src/` (the keyword
hash, `readnum`, `nasm_unquote`, the `nctype` character classifiers and
the token/flag constants) are modelled from the spec, either as fields
of an explicit `ScanExt` record or as spec-modelled definitions. -/

/-- Terminating NUL byte of the C line buffer. -/
def NUL : Char := Char.ofNat 0

/-- The single-quote character. -/
def QUOTE1 : Char := Char.ofNat 39

/-- The double-quote character. -/
def QUOTE2 : Char := Char.ofNat 34

/-- The backquote character. -/
def BACKQUOTE : Char := Char.ofNat 96

/-- The opening brace character. -/
def LBRACE : Char := Char.ofNat 123

/-- The closing brace character. -/
def RBRACE : Char := Char.ofNat 125

/-- Character read at offset `i` of the line buffer: the buffer is
NUL-terminated, so any offset at or past the end reads `NUL`. -/
def getc (buf : List Char) (i : Nat) : Char := (buf.drop i).headD NUL

/-- `memcpy`-style extraction of `len` characters starting at offset `start`. -/
def bufSub (buf : List Char) (start len : Nat) : List Char :=
  (buf.drop start).take len

/-- Modelled from the spec: the externally owned `nasm_isspace` classifier. -/
def nasm_isspace (c : Char) : Bool :=
  c == ' ' || c == Char.ofNat 9 || c == Char.ofNat 10 || c == Char.ofNat 11 ||
  c == Char.ofNat 12 || c == Char.ofNat 13

/-- Modelled from the spec: the externally owned "is identifier-start
character" classifier. -/
def nasm_isidstart (c : Char) : Bool :=
  c.isAlpha || c == '_' || c == '.' || c == '?'

/-- Modelled from the spec: the externally owned "is identifier-continuation
character" classifier. -/
def nasm_isidchar (c : Char) : Bool :=
  nasm_isidstart c || c.isDigit || c == '$' || c == '#' || c == '@' || c == '~'

/-- Modelled from the spec: the externally owned "is numeric-literal-start
character" classifier. -/
def nasm_isnumstart (c : Char) : Bool :=
  c.isDigit || c == '$'

/-- Modelled from the spec: the externally owned "is numeric-literal-continuation
character" classifier. -/
def nasm_isnumchar (c : Char) : Bool :=
  c.isAlphanum || c == '_'

/-- Modelled from the spec: the externally owned "is brace-content character"
classifier (identifier characters plus the dash, for forms like rn-sae). -/
def nasm_isbrcchar (c : Char) : Bool :=
  nasm_isidchar c || c == '-'

/-! Token type codes.  Modelled from the spec: the `enum token_type` lives in a
header outside `src/`; the multi-character codes start at 256 so that they
never collide with a raw single-character token, and end-of-stream is 0. -/

/-- Modelled from the spec: invalid-token code. -/
def TOKEN_INVALID : Int := -1

/-- Modelled from the spec: end-of-stream token code. -/
def TOKEN_EOS : Int := 0

/-- Modelled from the spec: identifier token code. -/
def TOKEN_ID : Int := 256

/-- Modelled from the spec: integer-number token code. -/
def TOKEN_NUM : Int := 257

/-- Modelled from the spec: malformed-number token code. -/
def TOKEN_ERRNUM : Int := 258

/-- Modelled from the spec: string token code. -/
def TOKEN_STR : Int := 259

/-- Modelled from the spec: malformed-string token code. -/
def TOKEN_ERRSTR : Int := 260

/-- Modelled from the spec: floating-point token code. -/
def TOKEN_FLOAT : Int := 261

/-- Modelled from the spec: current-position marker token code. -/
def TOKEN_HERE : Int := 262

/-- Modelled from the spec: base-of-segment marker token code. -/
def TOKEN_BASE : Int := 263

/-- Modelled from the spec: shift-left operator token code. -/
def TOKEN_SHL : Int := 264

/-- Modelled from the spec: logical-shift-right operator token code. -/
def TOKEN_SHR : Int := 265

/-- Modelled from the spec: arithmetic-shift-right operator token code. -/
def TOKEN_SAR : Int := 266

/-- Modelled from the spec: signed-division operator token code. -/
def TOKEN_SDIV : Int := 267

/-- Modelled from the spec: signed-modulo operator token code. -/
def TOKEN_SMOD : Int := 268

/-- Modelled from the spec: equality operator token code. -/
def TOKEN_EQ : Int := 269

/-- Modelled from the spec: inequality operator token code. -/
def TOKEN_NE : Int := 270

/-- Modelled from the spec: less-or-equal operator token code. -/
def TOKEN_LE : Int := 271

/-- Modelled from the spec: greater-or-equal operator token code. -/
def TOKEN_GE : Int := 272

/-- Modelled from the spec: three-way-compare operator token code. -/
def TOKEN_LEG : Int := 273

/-- Modelled from the spec: logical-and operator token code. -/
def TOKEN_DBL_AND : Int := 274

/-- Modelled from the spec: logical-xor operator token code. -/
def TOKEN_DBL_XOR : Int := 275

/-- Modelled from the spec: logical-or operator token code. -/
def TOKEN_DBL_OR : Int := 276

/-- Modelled from the spec: opmask-usage token code (opmask register used as a
predicate mask inside braces). -/
def TOKEN_OPMASK : Int := 277

/-- Modelled from the spec: flag bit "valid inside braces (mandatory class)". -/
def TFLAG_BRC : Nat := 1

/-- Modelled from the spec: flag bit "valid inside braces (optional class)". -/
def TFLAG_BRC_OPT : Nat := 2

/-- Modelled from the spec: mask of the flag bits that make a token valid
inside braces at all. -/
def TFLAG_BRC_ANY : Nat := TFLAG_BRC ||| TFLAG_BRC_OPT

/-- Modelled from the spec: flag bit "this spelling triggers a compatibility
warning" (foreign-dialect keyword). -/
def TFLAG_WARN : Nat := 8

/-- Modelled from the spec: `IDLEN_MAX`, the identifier storage bound defined
in a header outside `src/`. -/
def IDLEN_MAX : Nat := 4096

/-- Modelled from the spec: `MAX_KEYWORD`, the maximum keyword length defined
in a header outside `src/`. -/
def MAX_KEYWORD : Nat := 9

/-- A pointer value stored in a token's text field: the C `char *` is either
NULL, a pointer to an Arena-owned copy (identified by its contents), or a
pointer into the caller's line buffer at a given offset. -/
inductive CharPtr where
  | null : CharPtr
  | arena (s : List Char) : CharPtr
  | buf (off : Nat) : CharPtr
deriving DecidableEq, Repr

/-- The text an arena pointer refers to (the brace handler is only invoked
with an arena pointer). -/
def charptrStr : CharPtr → List Char
  | CharPtr.arena s => s
  | _ => []

/-- `struct tokenval`: the token record filled in by the scanner.  The C
`nasm_zero` clears every field, which the default values mirror. -/
structure Tokenval where
  t_type : Int := 0
  t_charptr : CharPtr := CharPtr.null
  t_integer : Int := 0
  t_inttwo : Int := 0
  t_flag : Nat := 0
  t_start : Nat := 0
  t_len : Nat := 0
deriving DecidableEq, Repr

/-- `enum stdscan_scan_state`: currently the single normal state. -/
inductive ScanSState where
  | ss_init : ScanSState
deriving DecidableEq, Repr

/-- The process-wide scanner state: the caller-owned line buffer, the read
cursor into it, the pushback stack (`struct token_stack` chain), the scan
sub-state, and the temp-storage arena (`stdscan_tempstorage`, most recent
entry first). -/
structure ScanState where
  buf : List Char
  bufptr : Nat
  pushback : List Tokenval
  sstate : ScanSState
  arena : List (List Char)
deriving DecidableEq, Repr

/-- Diagnostics the scanner can emit (`nasm_nonfatal` / `nasm_warn`). -/
inductive Diag where
  | invalid_brace_token (s : List Char) : Diag
  | invalid_brace_long (s : List Char) : Diag
  | unterminated_braces : Diag
  | warn_ptr (s : List Char) : Diag
deriving DecidableEq, Repr

/-- Result of one scanner call: the updated state, the token written through
the out-parameter, and the diagnostics emitted on the way. -/
structure TokRes where
  st : ScanState
  tv : Tokenval
  diags : List Diag
deriving DecidableEq, Repr

/-- Result of the external keyword-resolution collaborator: a token type, the
flag bit-set, and the integer payload (register number and the like). -/
structure KwResult where
  ttype : Int
  tflag : Nat
  tint : Int
deriving DecidableEq, Repr

/-- The external collaborators the scanner core consumes: keyword resolution,
numeric conversion, string unescape, and the opmask register-class test. -/
structure ScanExt where
  token_hash : List Char → KwResult
  readnum : List Char → Int × Bool
  unquote : List Char → Nat → Nat × Int
  is_opmask : Int → Bool

/-- Generic character-run scanner: starting at offset `p` whose suffix of the
buffer is `l`, advance while `f` holds and return the final offset.  All three
C scanning loops (`nasm_skip_spaces`, the identifier loop, the brace-content
loop) are instances. -/
def scanWhile (f : Char → Bool) : List Char → Nat → Nat
  | [], p => p
  | c :: rest, p => if f c then scanWhile f rest (p + 1) else p

/-- `nasm_skip_spaces`: advance the cursor past whitespace. -/
def nasm_skip_spaces (buf : List Char) (p : Nat) : Nat :=
  scanWhile nasm_isspace (buf.drop p) p

/-- The identifier-continuation loop of `stdscan_token`. -/
def idloop (buf : List Char) (p : Nat) : Nat :=
  scanWhile nasm_isidchar (buf.drop p) p

/-- The brace-content loop of `stdscan_parse_braces`. -/
def brcloop (buf : List Char) (p : Nat) : Nat :=
  scanWhile nasm_isbrcchar (buf.drop p) p

/-- Result of the numeric-literal scanning loop: the final cursor (already
pointing at the first character beyond the literal, i.e. after the C
`scan.bufptr--`) and the three classification flags. -/
structure NumScan where
  pos : Nat
  is_hex : Bool
  is_float : Bool
  has_e : Bool
deriving DecidableEq, Repr

/-- The numeric-literal loop of `stdscan_token`, over the suffix `l` of the
buffer starting at offset `p` (the end of the list is the terminating NUL,
which matches no class and breaks the loop). -/
def numloopAux : List Char → Nat → Bool → Bool → Bool → NumScan
  | [], p, hx, fl, he => { pos := p, is_hex := hx, is_float := fl, has_e := he }
  | c :: rest, p, hx, fl, he =>
    if ¬hx ∧ (c = 'e' ∨ c = 'E') then
      match rest with
      | [] => { pos := p + 1, is_hex := hx, is_float := fl, has_e := true }
      | c2 :: rest2 =>
        if c2 = '+' ∨ c2 = '-' then numloopAux rest2 (p + 2) hx true true
        else numloopAux (c2 :: rest2) (p + 1) hx fl true
    else if c = 'H' ∨ c = 'h' ∨ c = 'X' ∨ c = 'x' then
      numloopAux rest (p + 1) true fl he
    else if c = 'P' ∨ c = 'p' then
      match rest with
      | [] => { pos := p + 1, is_hex := hx, is_float := true, has_e := he }
      | c2 :: rest2 =>
        if c2 = '+' ∨ c2 = '-' then numloopAux rest2 (p + 2) hx true he
        else numloopAux (c2 :: rest2) (p + 1) hx true he
    else if nasm_isnumchar c then
      numloopAux rest (p + 1) hx fl he
    else if c = '.' then
      numloopAux rest (p + 1) hx true he
    else
      { pos := p, is_hex := hx, is_float := fl, has_e := he }

/-- The numeric-literal loop at offset `p` of the buffer. -/
def numloop (buf : List Char) (p : Nat) (hx fl he : Bool) : NumScan :=
  numloopAux (buf.drop p) p hx fl he

/-- `nasm_token_hash` as the scanner sees it: resolve the copied text and let
the result overwrite the token's type, flag set and integer payload. -/
def nasm_token_hash (ext : ScanExt) (s : List Char) (tv : Tokenval) : Tokenval :=
  let k := ext.token_hash s
  { tv with t_type := k.ttype, t_flag := k.tflag, t_integer := k.tint }

/-- `stdscan_handle_brace`: assign the proper token type to a token enclosed
in braces, according to its flag bits. -/
def stdscan_handle_brace (ext : ScanExt) (st : ScanState) (tv : Tokenval) : TokRes :=
  if tv.t_flag &&& TFLAG_BRC_ANY = 0 then
    { st := st, tv := { tv with t_type := TOKEN_INVALID },
      diags := [Diag.invalid_brace_token (charptrStr tv.t_charptr)] }
  else if tv.t_flag &&& TFLAG_BRC_OPT ≠ 0 then
    if ext.is_opmask tv.t_integer then
      { st := st, tv := { tv with t_type := TOKEN_OPMASK }, diags := [] }
    else
      { st := st, tv := tv, diags := [] }
  else
    { st := st, tv := tv, diags := [] }

/-- Start of the brace content: skip the opening brace and the whitespace
after it. -/
def brc_r (buf : List Char) (p : Nat) : Nat := nasm_skip_spaces buf (p + 1)

/-- End of the brace-content run. -/
def brc_e (buf : List Char) (p : Nat) : Nat := brcloop buf (brc_r buf p)

/-- Length of the brace-content run (`token_len`). -/
def brc_len (buf : List Char) (p : Nat) : Nat := brc_e buf p - brc_r buf p

/-- The brace-content run itself. -/
def brc_content (buf : List Char) (p : Nat) : List Char :=
  bufSub buf (brc_r buf p) (brc_len buf p)

/-- Position of the expected closing brace: whitespace after the content run
is skipped. -/
def brc_close (buf : List Char) (p : Nat) : Nat := nasm_skip_spaces buf (brc_e buf p)

/-- The arena after the braced token's copy step: the content is copied only
when its length is within the keyword bound. -/
def brc_arena (st : ScanState) : List (List Char) :=
  if brc_len st.buf st.bufptr ≤ MAX_KEYWORD then
    brc_content st.buf st.bufptr :: st.arena
  else
    st.arena

/-- The token after the braced token's copy step. -/
def brc_tv1 (buf : List Char) (p : Nat) (tv : Tokenval) : Tokenval :=
  if brc_len buf p ≤ MAX_KEYWORD then
    { tv with t_charptr := CharPtr.arena (brc_content buf p) }
  else
    tv

/-- `stdscan_parse_braces`: parse a braced token, the cursor sitting on the
opening brace. -/
def stdscan_parse_braces (ext : ScanExt) (st : ScanState) (tv : Tokenval) : TokRes :=
  if ¬(getc st.buf (brc_close st.buf st.bufptr) = RBRACE) then
    { st := { st with bufptr := brc_close st.buf st.bufptr, arena := brc_arena st },
      tv := { brc_tv1 st.buf st.bufptr tv with t_type := TOKEN_INVALID },
      diags := [Diag.unterminated_braces] }
  else if brc_len st.buf st.bufptr > MAX_KEYWORD then
    { st := { st with bufptr := brc_close st.buf st.bufptr + 1, arena := brc_arena st },
      tv := { brc_tv1 st.buf st.bufptr tv with t_type := TOKEN_INVALID },
      diags := [Diag.invalid_brace_long (brc_content st.buf st.bufptr)] }
  else
    stdscan_handle_brace ext
      { st with bufptr := brc_close st.buf st.bufptr + 1, arena := brc_arena st }
      (nasm_token_hash ext (charptrStr (brc_tv1 st.buf st.bufptr tv).t_charptr)
        (brc_tv1 st.buf st.bufptr tv))

/-- Whether the identifier is `$`-forced (`is_sym`). -/
def id_is_sym (buf : List Char) (p : Nat) : Bool := getc buf p == '$'

/-- Start of the identifier run (`r`), past the forcing `$` if present. -/
def id_r (buf : List Char) (p : Nat) : Nat := if id_is_sym buf p then p + 1 else p

/-- End of the identifier run: the first character is consumed unconditionally,
the loop consumes the identifier-continuation run after it. -/
def id_e (buf : List Char) (p : Nat) : Nat := idloop buf (id_r buf p + 1)

/-- Length of the raw identifier spelling. -/
def id_len (buf : List Char) (p : Nat) : Nat := id_e buf p - id_r buf p

/-- Number of characters actually copied: at most `IDLEN_MAX - 1`. -/
def id_copyLen (buf : List Char) (p : Nat) : Nat :=
  if id_len buf p < IDLEN_MAX then id_len buf p else IDLEN_MAX - 1

/-- The stored (possibly truncated) identifier text. -/
def id_text (buf : List Char) (p : Nat) : List Char :=
  bufSub buf (id_r buf p) (id_copyLen buf p)

/-- Scanner state after the identifier copy: cursor past the full spelling,
the copy pushed onto the arena. -/
def id_st1 (st : ScanState) : ScanState :=
  { st with bufptr := id_e st.buf st.bufptr, arena := id_text st.buf st.bufptr :: st.arena }

/-- Token after the identifier copy. -/
def id_tv1 (buf : List Char) (p : Nat) (tv : Tokenval) : Tokenval :=
  { tv with t_charptr := CharPtr.arena (id_text buf p) }

/-- Token after keyword resolution of the copied identifier text. -/
def id_tv2 (ext : ScanExt) (buf : List Char) (p : Nat) (tv : Tokenval) : Tokenval :=
  nasm_token_hash ext (id_text buf p) (id_tv1 buf p tv)

/-- The foreign-dialect keyword advisory, when the resolved flags request it. -/
def id_ds (ext : ScanExt) (buf : List Char) (p : Nat) (tv : Tokenval) : List Diag :=
  if (id_tv2 ext buf p tv).t_flag &&& TFLAG_WARN ≠ 0 then
    [Diag.warn_ptr (id_text buf p)]
  else
    []

/-- The identifier/keyword branch of `stdscan_token`: consume an optional
forcing `$`, the identifier run, copy at most `IDLEN_MAX - 1` characters into
the arena, and either bypass or invoke keyword resolution. -/
def stdscan_id (ext : ScanExt) (st : ScanState) (tv : Tokenval) : TokRes :=
  if id_is_sym st.buf st.bufptr ∨ id_len st.buf st.bufptr > MAX_KEYWORD then
    { st := id_st1 st, tv := { id_tv1 st.buf st.bufptr tv with t_type := TOKEN_ID }, diags := [] }
  else if (id_tv2 ext st.buf st.bufptr tv).t_flag &&& TFLAG_BRC = 0 then
    { st := id_st1 st, tv := id_tv2 ext st.buf st.bufptr tv, diags := id_ds ext st.buf st.bufptr tv }
  else
    { st := id_st1 st, tv := { id_tv2 ext st.buf st.bufptr tv with t_type := TOKEN_ID }, diags := id_ds ext st.buf st.bufptr tv }

/-- The `$`/`$$` location-marker branch of `stdscan_token`. -/
def stdscan_dollar (st : ScanState) (tv : Tokenval) : TokRes :=
  if getc st.buf (st.bufptr + 1) = '$' then
    { st := { st with bufptr := st.bufptr + 2 }, tv := { tv with t_type := TOKEN_BASE },
      diags := [] }
  else
    { st := { st with bufptr := st.bufptr + 1 }, tv := { tv with t_type := TOKEN_HERE },
      diags := [] }

/-- Whether the numeric literal starts with the `$` radix marker. -/
def num_hex0 (buf : List Char) (p : Nat) : Bool := getc buf p == '$'

/-- The numeric classification loop, started past the optional `$` with the
hex flag seeded accordingly. -/
def num_ns (buf : List Char) (p : Nat) : NumScan :=
  numloop buf (if num_hex0 buf p then p + 1 else p) (num_hex0 buf p) false false

/-- Final floating-point resolution: the loop's flag, or an exponent seen on a
literal never marked hexadecimal. -/
def num_isFloat (buf : List Char) (p : Nat) : Bool :=
  (num_ns buf p).is_float || ((num_ns buf p).has_e && !(num_ns buf p).is_hex)

/-- The matched literal text, `$` marker included. -/
def num_text (buf : List Char) (p : Nat) : List Char :=
  bufSub buf p ((num_ns buf p).pos - p)

/-- The numeric-literal branch of `stdscan_token`: run the classification
loop, resolve the integer/float ambiguity, and either copy the literal
verbatim (float) or convert it through a scratch arena entry that is freed
again before returning (integer). -/
def stdscan_num (ext : ScanExt) (st : ScanState) (tv : Tokenval) : TokRes :=
  if num_isFloat st.buf st.bufptr then
    { st := { st with bufptr := (num_ns st.buf st.bufptr).pos, arena := num_text st.buf st.bufptr :: st.arena },
      tv := { tv with t_charptr := CharPtr.arena (num_text st.buf st.bufptr), t_type := TOKEN_FLOAT }, diags := [] }
  else if (ext.readnum (num_text st.buf st.bufptr)).2 then
    { st := { st with bufptr := (num_ns st.buf st.bufptr).pos, arena := (num_text st.buf st.bufptr :: st.arena).tail },
      tv := { tv with t_type := TOKEN_ERRNUM }, diags := [] }
  else
    { st := { st with bufptr := (num_ns st.buf st.bufptr).pos, arena := (num_text st.buf st.bufptr :: st.arena).tail },
      tv := { tv with t_integer := (ext.readnum (num_text st.buf st.bufptr)).1, t_charptr := CharPtr.null, t_type := TOKEN_NUM }, diags := [] }

/-- The quoted-string branch of `stdscan_token`: delegate to the external
unescape collaborator and check the closing quote. -/
def stdscan_str (ext : ScanExt) (st : ScanState) (tv : Tokenval) : TokRes :=
  if ¬(getc st.buf (ext.unquote st.buf st.bufptr).1 = getc st.buf st.bufptr) then
    { st := { st with bufptr := (ext.unquote st.buf st.bufptr).1 },
      tv := { tv with t_charptr := CharPtr.buf st.bufptr, t_inttwo := (ext.unquote st.buf st.bufptr).2, t_type := TOKEN_ERRSTR },
      diags := [] }
  else
    { st := { st with bufptr := (ext.unquote st.buf st.bufptr).1 + 1 },
      tv := { tv with t_charptr := CharPtr.buf st.bufptr, t_inttwo := (ext.unquote st.buf st.bufptr).2, t_type := TOKEN_STR },
      diags := [] }

/-- Greedy match of a fixed operator spelling at offset `p`: character by
character, left to right, exactly the reads the C condition chain performs. -/
def matchAt (buf : List Char) (p : Nat) : List Char → Bool
  | [] => true
  | c :: cs => getc buf p == c && matchAt buf (p + 1) cs

/-- The multi-character operator table, in the C checking order (longest
spelling of each family first, `<>` before `<=`). -/
def opTable : List (List Char × Int) :=
  [ (['>', '>', '>'], TOKEN_SAR)
  , (['>', '>'], TOKEN_SHR)
  , (['<', '<', '<'], TOKEN_SHL)
  , (['<', '<'], TOKEN_SHL)
  , (['/', '/'], TOKEN_SDIV)
  , (['%', '%'], TOKEN_SMOD)
  , (['=', '='], TOKEN_EQ)
  , (['<', '>'], TOKEN_NE)
  , (['!', '='], TOKEN_NE)
  , (['<', '=', '>'], TOKEN_LEG)
  , (['<', '='], TOKEN_LE)
  , (['>', '='], TOKEN_GE)
  , (['&', '&'], TOKEN_DBL_AND)
  , (['^', '^'], TOKEN_DBL_XOR)
  , (['|', '|'], TOKEN_DBL_OR) ]

/-- First table entry matching at offset `p`: its length (the cursor advance)
and its token code. -/
def opLookup (buf : List Char) (p : Nat) : List (List Char × Int) → Option (Nat × Int)
  | [] => none
  | (s, ty) :: rest =>
    if matchAt buf p s then some (s.length, ty) else opLookup buf p rest

/-- The tail of `stdscan_token`: the comment character, the greedy
multi-character operator table, and the raw single-character fallback. -/
def stdscan_opchar (st : ScanState) (tv : Tokenval) : TokRes :=
  if getc st.buf st.bufptr = ';' then
    { st := st, tv := { tv with t_type := TOKEN_EOS }, diags := [] }
  else
    match opLookup st.buf st.bufptr opTable with
    | some nty =>
      { st := { st with bufptr := st.bufptr + nty.1 }, tv := { tv with t_type := nty.2 },
        diags := [] }
    | none =>
      { st := { st with bufptr := st.bufptr + 1 },
        tv := { tv with t_type := (((getc st.buf st.bufptr).toNat % 256 : Nat) : Int) },
        diags := [] }

/-- `stdscan_token`: classify and scan one token, the cursor sitting on its
first character (known to be neither whitespace nor the terminating NUL).
The branches are dispatched, in the C precedence order, to the specialized
scanners above. -/
def stdscan_token (ext : ScanExt) (st : ScanState) (tv : Tokenval) : TokRes :=
  if nasm_isidstart (getc st.buf st.bufptr) ∨
      (getc st.buf st.bufptr = '$' ∧ nasm_isidstart (getc st.buf (st.bufptr + 1))) then
    stdscan_id ext st tv
  else if getc st.buf st.bufptr = '$' ∧ ¬nasm_isnumchar (getc st.buf (st.bufptr + 1)) then
    stdscan_dollar st tv
  else if nasm_isnumstart (getc st.buf st.bufptr) then
    stdscan_num ext st tv
  else if getc st.buf st.bufptr = QUOTE1 ∨ getc st.buf st.bufptr = QUOTE2 ∨
      getc st.buf st.bufptr = BACKQUOTE then
    stdscan_str ext st tv
  else if getc st.buf st.bufptr = LBRACE then
    stdscan_parse_braces ext st tv
  else
    stdscan_opchar st tv

/-- Record the lexeme length once the classifier is done (`t_len`). -/
def recordLen (r : TokRes) : TokRes :=
  { r with tv := { r.tv with t_len := r.st.bufptr - r.tv.t_start } }

/-- `stdscan`: the top-level scan entry.  A pending pushback entry is
re-delivered verbatim; otherwise the out-parameter is zeroed, whitespace is
skipped, the end-of-line case is checked, and the classifier runs, after
which the lexeme length is recorded. -/
def stdscan (ext : ScanExt) (st : ScanState) (tv : Tokenval) : TokRes :=
  match st.pushback with
  | ts :: rest => { st := { st with pushback := rest }, tv := ts, diags := [] }
  | [] =>
    if getc st.buf (nasm_skip_spaces st.buf st.bufptr) = NUL then
      { st := { st with bufptr := nasm_skip_spaces st.buf st.bufptr },
        tv := { t_start := nasm_skip_spaces st.buf st.bufptr, t_type := TOKEN_EOS },
        diags := [] }
    else
      recordLen (stdscan_token ext { st with bufptr := nasm_skip_spaces st.buf st.bufptr }
        { t_start := nasm_skip_spaces st.buf st.bufptr })

/-- `stdscan_pushback`: push a copy of the token onto the pushback stack. -/
def stdscan_pushback (st : ScanState) (tv : Tokenval) : ScanState :=
  { st with pushback := tv :: st.pushback }

/-- `stdscan_reset`: free every arena entry, drop every pushback entry, and
point the cursor at the start of the new line buffer. -/
def stdscan_reset (buffer : List Char) : ScanState :=
  { buf := buffer, bufptr := 0, pushback := [], sstate := ScanSState.ss_init, arena := [] }

/-- Repeated scanning: final state and the token delivered by the `n`-th
`stdscan` call (each call getting a fresh out-parameter). -/
def stdscanIter (ext : ScanExt) : ScanState → Nat → ScanState × Tokenval
  | st, 0 => (st, {})
  | st, n + 1 =>
    let r := stdscan ext st {}
    match n with
    | 0 => (r.st, r.tv)
    | m + 1 => stdscanIter ext r.st (m + 1)

/-- Modelled from the spec: the digit value of a character, for bases up
to 16. -/
def hexDigitVal (c : Char) : Option Nat :=
  if c.isDigit then some (c.toNat - 48)
  else if 'a' ≤ c ∧ c ≤ 'f' then some (c.toNat - 87)
  else if 'A' ≤ c ∧ c ≤ 'F' then some (c.toNat - 55)
  else none

/-- Modelled from the spec: accumulate the digits of a numeral in the given
radix, `none` signalling malformation. -/
def parseRadix (radix : Nat) : List Char → Option Nat → Option Nat
  | [], acc => acc
  | c :: rest, acc =>
    match acc, hexDigitVal c with
    | some a, some d =>
      if d < radix then parseRadix radix rest (some (a * radix + d))
      else parseRadix radix rest none
    | _, _ => parseRadix radix rest none

/-- Modelled from the spec: the external numeric-conversion collaborator
`readnum` (it lives outside `src/`).  It accepts the `$`-prefixed hex form,
the `h`/`H`/`x`/`X`-suffixed hex form and plain decimal numerals, and reports
malformation otherwise. -/
def readnum_spec (s : List Char) : Int × Bool :=
  let conv : Option Nat :=
    match s with
    | '$' :: rest => if rest = [] then none else parseRadix 16 rest (some 0)
    | _ =>
      let lc := s.getLastD NUL
      if lc = 'h' ∨ lc = 'H' ∨ lc = 'x' ∨ lc = 'X' then
        if s.dropLast = [] then none else parseRadix 16 s.dropLast (some 0)
      else if s = [] then none
      else parseRadix 10 s (some 0)
  match conv with
  | some v => ((v : Int), false)
  | none => (0, true)

/-- Modelled from the spec: the external string-unescape collaborator
`nasm_unquote` (it lives outside `src/`).  Per its contract it advances the
cursor past the decoded content, stopping exactly at the character that must
equal the opening quote; the simple quote forms carry no escapes here, so the
decoded length is the distance scanned. -/
def unquote_spec (buf : List Char) (p : Nat) : Nat × Int :=
  let q := getc buf p
  let e := scanWhile (fun c => !(c == q) && !(c == NUL)) (buf.drop (p + 1)) (p + 1)
  (e, ((e - (p + 1) : Nat) : Int))

/-- Modelled from the spec: a keyword table that resolves no spelling, i.e.
every submitted text comes back as a plain identifier with no flags, as the
external hash does for unknown spellings. -/
def token_hash_spec : List Char → KwResult :=
  fun _ => { ttype := TOKEN_ID, tflag := 0, tint := 0 }

/-- A concrete instantiation of the external collaborators, used to evaluate
the scanner on concrete inputs. -/
def ext_spec : ScanExt :=
  { token_hash := token_hash_spec
  , readnum := readnum_spec
  , unquote := unquote_spec
  , is_opmask := fun _ => false }

/-! Basic facts about buffer reads. -/

theorem getc_eq_nul {buf : List Char} {i : Nat} (h : buf.length ≤ i) : getc buf i = NUL := by
  simp [getc, List.drop_eq_nil_of_le h]

theorem lt_of_getc_ne {buf : List Char} {i : Nat} (h : getc buf i ≠ NUL) : i < buf.length := by
  by_contra hc
  exact h (getc_eq_nul (by omega))

theorem getc_mem {buf : List Char} {i : Nat} (h : getc buf i ≠ NUL) : getc buf i ∈ buf := by
  unfold getc at h ⊢
  cases hd : buf.drop i with
  | nil => simp [hd] at h
  | cons c rest =>
    simp [hd]
    exact List.mem_of_mem_drop (by rw [hd]; exact List.mem_cons_self c rest)

theorem drop_cons {buf rest : List Char} {c : Char} {i : Nat} (h : buf.drop i = c :: rest) :
    buf.drop (i + 1) = rest := by
  rw [← List.tail_drop, h]
  rfl

theorem getc_of_drop {buf rest : List Char} {c : Char} {i : Nat} (h : buf.drop i = c :: rest) :
    getc buf i = c := by
  simp [getc, h]

theorem getc_append {buf junk : List Char} {i : Nat} (h : i ≤ buf.length) :
    getc (buf ++ NUL :: junk) i = getc buf i := by
  unfold getc
  rw [List.drop_append_of_le_length h]
  cases hd : buf.drop i with
  | nil => simp [hd]
  | cons c rest => simp [hd]

/-! Facts about the generic character-run scanner. -/

theorem scanWhile_eq (f : Char → Bool) (l : List Char) (p : Nat) :
    scanWhile f l p = p + (l.takeWhile f).length := by
  induction l generalizing p with
  | nil => simp [scanWhile]
  | cons c rest ih =>
    by_cases h : f c
    · simp [scanWhile, h, ih, List.takeWhile_cons]
      omega
    · simp [scanWhile, h, List.takeWhile_cons]

theorem takeWhile_length_le (f : Char → Bool) (l : List Char) :
    (l.takeWhile f).length ≤ l.length := by
  induction l with
  | nil => simp
  | cons c rest ih =>
    rw [List.takeWhile_cons]
    by_cases h : f c <;> simp [h] <;> omega

theorem le_scanFrom (f : Char → Bool) (buf : List Char) (p : Nat) :
    p ≤ scanWhile f (buf.drop p) p := by
  rw [scanWhile_eq]; omega

theorem scanFrom_le (f : Char → Bool) (buf : List Char) (p : Nat) (h : p ≤ buf.length) :
    scanWhile f (buf.drop p) p ≤ buf.length := by
  rw [scanWhile_eq]
  have h1 := takeWhile_length_le f (buf.drop p)
  rw [List.length_drop] at h1
  omega

theorem takeWhile_append_nul {f : Char → Bool} (hf : f NUL = false) (l junk : List Char) :
    (l ++ NUL :: junk).takeWhile f = l.takeWhile f := by
  induction l with
  | nil => simp [List.takeWhile_cons, hf]
  | cons c rest ih =>
    by_cases h : f c <;> simp [List.takeWhile_cons, h, ih]

theorem scanFrom_append {f : Char → Bool} (hf : f NUL = false) (buf junk : List Char)
    (p : Nat) (h : p ≤ buf.length) :
    scanWhile f ((buf ++ NUL :: junk).drop p) p = scanWhile f (buf.drop p) p := by
  rw [List.drop_append_of_le_length h, scanWhile_eq, scanWhile_eq, takeWhile_append_nul hf]

theorem scanFrom_stop {f : Char → Bool} (hf : f NUL = false) (buf : List Char) (p : Nat) :
    f (getc buf (scanWhile f (buf.drop p) p)) = false := by
  have H : ∀ l p2, buf.drop p2 = l → f (getc buf (scanWhile f l p2)) = false := by
    intro l
    induction l with
    | nil =>
      intro p2 hd
      rw [scanWhile]
      rw [getc, hd]
      simpa using hf
    | cons c rest ih =>
      intro p2 hd
      by_cases h : f c
      · rw [scanWhile, if_pos h]
        exact ih (p2 + 1) (drop_cons hd)
      · rw [scanWhile, if_neg h]
        rw [getc_of_drop hd]
        simpa using h
  exact H (buf.drop p) p rfl

theorem scanFrom_idem {f : Char → Bool} {buf : List Char} {q : Nat}
    (h : f (getc buf q) = false) : scanWhile f (buf.drop q) q = q := by
  cases hd : buf.drop q with
  | nil => rw [scanWhile]
  | cons c rest =>
    rw [getc_of_drop hd] at h
    rw [scanWhile, if_neg (by simp [h])]

/-! One-step equations for the numeric-literal loop, by branch. -/

theorem numAux_nil (p : Nat) (hx fl he : Bool) :
    numloopAux [] p hx fl he = { pos := p, is_hex := hx, is_float := fl, has_e := he } := rfl

theorem numAux_e_nil {c : Char} {hx : Bool} (p : Nat) (fl he : Bool)
    (h1 : ¬hx = true ∧ (c = 'e' ∨ c = 'E')) :
    numloopAux [c] p hx fl he = { pos := p + 1, is_hex := hx, is_float := fl, has_e := true } := by
  rw [numloopAux.eq_2, if_pos h1]

theorem numAux_e_sign {c c2 : Char} {hx : Bool} (rest2 : List Char) (p : Nat) (fl he : Bool)
    (h1 : ¬hx = true ∧ (c = 'e' ∨ c = 'E')) (h2 : c2 = '+' ∨ c2 = '-') :
    numloopAux (c :: c2 :: rest2) p hx fl he = numloopAux rest2 (p + 2) hx true true := by
  rw [numloopAux.eq_3, if_pos h1, if_pos h2]

theorem numAux_e_nosign {c c2 : Char} {hx : Bool} (rest2 : List Char) (p : Nat) (fl he : Bool)
    (h1 : ¬hx = true ∧ (c = 'e' ∨ c = 'E')) (h2 : ¬(c2 = '+' ∨ c2 = '-')) :
    numloopAux (c :: c2 :: rest2) p hx fl he = numloopAux (c2 :: rest2) (p + 1) hx fl true := by
  rw [numloopAux.eq_3, if_pos h1, if_neg h2]

theorem numAux_hexc {c : Char} {hx : Bool} (rest : List Char) (p : Nat) (fl he : Bool)
    (h1 : ¬(¬hx = true ∧ (c = 'e' ∨ c = 'E'))) (h2 : c = 'H' ∨ c = 'h' ∨ c = 'X' ∨ c = 'x') :
    numloopAux (c :: rest) p hx fl he = numloopAux rest (p + 1) true fl he := by
  cases rest with
  | nil => rw [numloopAux.eq_2, if_neg h1, if_pos h2]
  | cons c2 rest2 => rw [numloopAux.eq_3, if_neg h1, if_pos h2]

theorem numAux_p_nil {c : Char} {hx : Bool} (p : Nat) (fl he : Bool)
    (h1 : ¬(¬hx = true ∧ (c = 'e' ∨ c = 'E'))) (h2 : ¬(c = 'H' ∨ c = 'h' ∨ c = 'X' ∨ c = 'x'))
    (h3 : c = 'P' ∨ c = 'p') :
    numloopAux [c] p hx fl he = { pos := p + 1, is_hex := hx, is_float := true, has_e := he } := by
  rw [numloopAux.eq_2, if_neg h1, if_neg h2, if_pos h3]

theorem numAux_p_sign {c c2 : Char} {hx : Bool} (rest2 : List Char) (p : Nat) (fl he : Bool)
    (h1 : ¬(¬hx = true ∧ (c = 'e' ∨ c = 'E'))) (h2 : ¬(c = 'H' ∨ c = 'h' ∨ c = 'X' ∨ c = 'x'))
    (h3 : c = 'P' ∨ c = 'p') (h4 : c2 = '+' ∨ c2 = '-') :
    numloopAux (c :: c2 :: rest2) p hx fl he = numloopAux rest2 (p + 2) hx true he := by
  rw [numloopAux.eq_3, if_neg h1, if_neg h2, if_pos h3, if_pos h4]

theorem numAux_p_nosign {c c2 : Char} {hx : Bool} (rest2 : List Char) (p : Nat) (fl he : Bool)
    (h1 : ¬(¬hx = true ∧ (c = 'e' ∨ c = 'E'))) (h2 : ¬(c = 'H' ∨ c = 'h' ∨ c = 'X' ∨ c = 'x'))
    (h3 : c = 'P' ∨ c = 'p') (h4 : ¬(c2 = '+' ∨ c2 = '-')) :
    numloopAux (c :: c2 :: rest2) p hx fl he = numloopAux (c2 :: rest2) (p + 1) hx true he := by
  rw [numloopAux.eq_3, if_neg h1, if_neg h2, if_pos h3, if_neg h4]

theorem numAux_numchar {c : Char} {hx : Bool} (rest : List Char) (p : Nat) (fl he : Bool)
    (h1 : ¬(¬hx = true ∧ (c = 'e' ∨ c = 'E'))) (h2 : ¬(c = 'H' ∨ c = 'h' ∨ c = 'X' ∨ c = 'x'))
    (h3 : ¬(c = 'P' ∨ c = 'p')) (h4 : nasm_isnumchar c = true) :
    numloopAux (c :: rest) p hx fl he = numloopAux rest (p + 1) hx fl he := by
  cases rest with
  | nil => rw [numloopAux.eq_2, if_neg h1, if_neg h2, if_neg h3, if_pos h4]
  | cons c2 rest2 => rw [numloopAux.eq_3, if_neg h1, if_neg h2, if_neg h3, if_pos h4]

theorem numAux_dot {c : Char} {hx : Bool} (rest : List Char) (p : Nat) (fl he : Bool)
    (h1 : ¬(¬hx = true ∧ (c = 'e' ∨ c = 'E'))) (h2 : ¬(c = 'H' ∨ c = 'h' ∨ c = 'X' ∨ c = 'x'))
    (h3 : ¬(c = 'P' ∨ c = 'p')) (h4 : ¬(nasm_isnumchar c = true)) (h5 : c = '.') :
    numloopAux (c :: rest) p hx fl he = numloopAux rest (p + 1) hx true he := by
  cases rest with
  | nil => rw [numloopAux.eq_2, if_neg h1, if_neg h2, if_neg h3, if_neg h4, if_pos h5]
  | cons c2 rest2 => rw [numloopAux.eq_3, if_neg h1, if_neg h2, if_neg h3, if_neg h4, if_pos h5]

theorem numAux_break {c : Char} {hx : Bool} (rest : List Char) (p : Nat) (fl he : Bool)
    (h1 : ¬(¬hx = true ∧ (c = 'e' ∨ c = 'E'))) (h2 : ¬(c = 'H' ∨ c = 'h' ∨ c = 'X' ∨ c = 'x'))
    (h3 : ¬(c = 'P' ∨ c = 'p')) (h4 : ¬(nasm_isnumchar c = true)) (h5 : ¬(c = '.')) :
    numloopAux (c :: rest) p hx fl he = { pos := p, is_hex := hx, is_float := fl, has_e := he } := by
  cases rest with
  | nil => rw [numloopAux.eq_2, if_neg h1, if_neg h2, if_neg h3, if_neg h4, if_neg h5]
  | cons c2 rest2 => rw [numloopAux.eq_3, if_neg h1, if_neg h2, if_neg h3, if_neg h4, if_neg h5]

theorem numAux_ge (l : List Char) (p : Nat) (hx fl he : Bool) :
    p ≤ (numloopAux l p hx fl he).pos := by
  induction l, p, hx, fl, he using numloopAux.induct with
  | case1 p hx fl he => simp [numAux_nil]
  | case2 c p hx fl he h1 => rw [numAux_e_nil p fl he h1]; simp
  | case3 c p hx fl he h1 c2 rest2 h2 ih =>
    rw [numAux_e_sign rest2 p fl he h1 h2]; omega
  | case4 c p hx fl he h1 c2 rest2 h2 ih =>
    rw [numAux_e_nosign rest2 p fl he h1 h2]; omega
  | case5 c rest p hx fl he h1 h2 ih =>
    rw [numAux_hexc rest p fl he h1 h2]; omega
  | case6 c p hx fl he h1 h2 h3 => rw [numAux_p_nil p fl he h1 h2 h3]; simp
  | case7 c p hx fl he h1 h2 h3 c2 rest2 h4 ih =>
    rw [numAux_p_sign rest2 p fl he h1 h2 h3 h4]; omega
  | case8 c p hx fl he h1 h2 h3 c2 rest2 h4 ih =>
    rw [numAux_p_nosign rest2 p fl he h1 h2 h3 h4]; omega
  | case9 c rest p hx fl he h1 h2 h3 h4 ih =>
    rw [numAux_numchar rest p fl he h1 h2 h3 h4]; omega
  | case10 rest p hx fl he h1 h2 h3 h4 ih =>
    rw [numAux_dot rest p fl he h1 h2 h3 h4 rfl]; omega
  | case11 c rest p hx fl he h1 h2 h3 h4 h5 =>
    rw [numAux_break rest p fl he h1 h2 h3 h4 h5]

theorem numAux_le (l : List Char) (p : Nat) (hx fl he : Bool) :
    (numloopAux l p hx fl he).pos ≤ p + l.length := by
  induction l, p, hx, fl, he using numloopAux.induct with
  | case1 p hx fl he => simp [numAux_nil]
  | case2 c p hx fl he h1 => rw [numAux_e_nil p fl he h1]; simp
  | case3 c p hx fl he h1 c2 rest2 h2 ih =>
    rw [numAux_e_sign rest2 p fl he h1 h2]; simp at ih ⊢; omega
  | case4 c p hx fl he h1 c2 rest2 h2 ih =>
    rw [numAux_e_nosign rest2 p fl he h1 h2]; simp at ih ⊢; omega
  | case5 c rest p hx fl he h1 h2 ih =>
    rw [numAux_hexc rest p fl he h1 h2]; simp at ih ⊢; omega
  | case6 c p hx fl he h1 h2 h3 => rw [numAux_p_nil p fl he h1 h2 h3]; simp
  | case7 c p hx fl he h1 h2 h3 c2 rest2 h4 ih =>
    rw [numAux_p_sign rest2 p fl he h1 h2 h3 h4]; simp at ih ⊢; omega
  | case8 c p hx fl he h1 h2 h3 c2 rest2 h4 ih =>
    rw [numAux_p_nosign rest2 p fl he h1 h2 h3 h4]; simp at ih ⊢; omega
  | case9 c rest p hx fl he h1 h2 h3 h4 ih =>
    rw [numAux_numchar rest p fl he h1 h2 h3 h4]; simp at ih ⊢; omega
  | case10 rest p hx fl he h1 h2 h3 h4 ih =>
    rw [numAux_dot rest p fl he h1 h2 h3 h4 rfl]; simp at ih ⊢; omega
  | case11 c rest p hx fl he h1 h2 h3 h4 h5 =>
    rw [numAux_break rest p fl he h1 h2 h3 h4 h5]; simp

theorem numAux_float_mono (l : List Char) (p : Nat) (hx fl he : Bool) (h : fl = true) :
    (numloopAux l p hx fl he).is_float = true := by
  induction l, p, hx, fl, he using numloopAux.induct with
  | case1 p hx fl he => rw [numAux_nil]; exact h
  | case2 c p hx fl he h1 => rw [numAux_e_nil p fl he h1]; exact h
  | case3 c p hx fl he h1 c2 rest2 h2 ih =>
    rw [numAux_e_sign rest2 p fl he h1 h2]; exact ih rfl
  | case4 c p hx fl he h1 c2 rest2 h2 ih =>
    rw [numAux_e_nosign rest2 p fl he h1 h2]; exact ih h
  | case5 c rest p hx fl he h1 h2 ih =>
    rw [numAux_hexc rest p fl he h1 h2]; exact ih h
  | case6 c p hx fl he h1 h2 h3 => rw [numAux_p_nil p fl he h1 h2 h3]
  | case7 c p hx fl he h1 h2 h3 c2 rest2 h4 ih =>
    rw [numAux_p_sign rest2 p fl he h1 h2 h3 h4]; exact ih rfl
  | case8 c p hx fl he h1 h2 h3 c2 rest2 h4 ih =>
    rw [numAux_p_nosign rest2 p fl he h1 h2 h3 h4]; exact ih rfl
  | case9 c rest p hx fl he h1 h2 h3 h4 ih =>
    rw [numAux_numchar rest p fl he h1 h2 h3 h4]; exact ih h
  | case10 rest p hx fl he h1 h2 h3 h4 ih =>
    rw [numAux_dot rest p fl he h1 h2 h3 h4 rfl]; exact ih rfl
  | case11 c rest p hx fl he h1 h2 h3 h4 h5 =>
    rw [numAux_break rest p fl he h1 h2 h3 h4 h5]; exact h

theorem numAux_nul (junk : List Char) (p : Nat) (hx fl he : Bool) :
    numloopAux (NUL :: junk) p hx fl he = { pos := p, is_hex := hx, is_float := fl, has_e := he } := by
  refine numAux_break junk p fl he ?_ (by decide) (by decide) (by decide) (by decide)
  rintro ⟨-, h | h⟩ <;> revert h <;> decide

theorem numAux_append (l junk : List Char) (p : Nat) (hx fl he : Bool) :
    numloopAux (l ++ NUL :: junk) p hx fl he = numloopAux l p hx fl he := by
  induction l, p, hx, fl, he using numloopAux.induct with
  | case1 p hx fl he => rw [List.nil_append, numAux_nul, numAux_nil]
  | case2 c p hx fl he h1 =>
    rw [List.cons_append, List.nil_append, numAux_e_nosign junk p fl he h1 (by decide),
      numAux_nul, numAux_e_nil p fl he h1]
  | case3 c p hx fl he h1 c2 rest2 h2 ih =>
    rw [List.cons_append, List.cons_append, numAux_e_sign _ p fl he h1 h2,
      numAux_e_sign _ p fl he h1 h2, ih]
  | case4 c p hx fl he h1 c2 rest2 h2 ih =>
    rw [List.cons_append, List.cons_append, numAux_e_nosign _ p fl he h1 h2,
      numAux_e_nosign _ p fl he h1 h2, ← List.cons_append, ih]
  | case5 c rest p hx fl he h1 h2 ih =>
    rw [List.cons_append, numAux_hexc _ p fl he h1 h2, numAux_hexc _ p fl he h1 h2, ih]
  | case6 c p hx fl he h1 h2 h3 =>
    rw [List.cons_append, List.nil_append, numAux_p_nosign junk p fl he h1 h2 h3 (by decide),
      numAux_nul, numAux_p_nil p fl he h1 h2 h3]
  | case7 c p hx fl he h1 h2 h3 c2 rest2 h4 ih =>
    rw [List.cons_append, List.cons_append, numAux_p_sign _ p fl he h1 h2 h3 h4,
      numAux_p_sign _ p fl he h1 h2 h3 h4, ih]
  | case8 c p hx fl he h1 h2 h3 c2 rest2 h4 ih =>
    rw [List.cons_append, List.cons_append, numAux_p_nosign _ p fl he h1 h2 h3 h4,
      numAux_p_nosign _ p fl he h1 h2 h3 h4, ← List.cons_append, ih]
  | case9 c rest p hx fl he h1 h2 h3 h4 ih =>
    rw [List.cons_append, numAux_numchar _ p fl he h1 h2 h3 h4,
      numAux_numchar _ p fl he h1 h2 h3 h4, ih]
  | case10 rest p hx fl he h1 h2 h3 h4 ih =>
    rw [List.cons_append, numAux_dot _ p fl he h1 h2 h3 h4 rfl,
      numAux_dot _ p fl he h1 h2 h3 h4 rfl, ih]
  | case11 c rest p hx fl he h1 h2 h3 h4 h5 =>
    rw [List.cons_append, numAux_break _ p fl he h1 h2 h3 h4 h5,
      numAux_break _ p fl he h1 h2 h3 h4 h5]

/-! Wrappers at the buffer level for the numeric loop. -/

theorem numloop_ge (buf : List Char) (p : Nat) (hx fl he : Bool) :
    p ≤ (numloop buf p hx fl he).pos :=
  numAux_ge (buf.drop p) p hx fl he

theorem numloop_le (buf : List Char) (p : Nat) (hx fl he : Bool) (h : p ≤ buf.length) :
    (numloop buf p hx fl he).pos ≤ buf.length := by
  have := numAux_le (buf.drop p) p hx fl he
  rw [List.length_drop] at this
  unfold numloop
  omega

theorem numloop_append (buf junk : List Char) (p : Nat) (hx fl he : Bool)
    (h : p ≤ buf.length) :
    numloop (buf ++ NUL :: junk) p hx fl he = numloop buf p hx fl he := by
  unfold numloop
  rw [List.drop_append_of_le_length h, numAux_append]

theorem digit_facts {c : Char} (h : c.isDigit = true) :
    ¬(c = 'e' ∨ c = 'E') ∧ ¬(c = 'H' ∨ c = 'h' ∨ c = 'X' ∨ c = 'x') ∧
    ¬(c = 'P' ∨ c = 'p') ∧ nasm_isnumchar c = true := by
  refine ⟨?_, ?_, ?_, ?_⟩
  · rintro (rfl | rfl) <;> exact absurd h (by decide)
  · rintro (rfl | rfl | rfl | rfl) <;> exact absurd h (by decide)
  · rintro (rfl | rfl) <;> exact absurd h (by decide)
  · simp [nasm_isnumchar, Char.isAlphanum, h]

theorem numloop_digit (buf : List Char) (p : Nat) (hx fl he : Bool)
    (h : (getc buf p).isDigit = true) :
    numloop buf p hx fl he = numloop buf (p + 1) hx fl he := by
  cases hd : buf.drop p with
  | nil =>
    rw [getc, hd] at h
    exact absurd h (by decide)
  | cons c rest =>
    have hc : getc buf p = c := getc_of_drop hd
    rw [hc] at h
    obtain ⟨h1, h2, h3, h4⟩ := digit_facts h
    unfold numloop
    rw [hd, numAux_numchar rest p fl he (by rintro ⟨-, hh⟩; exact h1 hh) h2 h3 h4,
      drop_cons hd]

/-! Frame lemmas: no scanner call touches the line buffer, the pushback stack
(when scanning fresh), or the scan sub-state. -/

theorem handle_brace_frame (ext : ScanExt) (st : ScanState) (tv : Tokenval) :
    (stdscan_handle_brace ext st tv).st = st := by
  unfold stdscan_handle_brace
  split_ifs <;> rfl

theorem id_frame (ext : ScanExt) (st : ScanState) (tv : Tokenval) :
    (stdscan_id ext st tv).st.buf = st.buf ∧
    (stdscan_id ext st tv).st.pushback = st.pushback ∧
    (stdscan_id ext st tv).st.sstate = st.sstate := by
  unfold stdscan_id
  split_ifs <;> exact ⟨rfl, rfl, rfl⟩

theorem dollar_frame (st : ScanState) (tv : Tokenval) :
    (stdscan_dollar st tv).st.buf = st.buf ∧
    (stdscan_dollar st tv).st.pushback = st.pushback ∧
    (stdscan_dollar st tv).st.sstate = st.sstate := by
  unfold stdscan_dollar
  split_ifs <;> exact ⟨rfl, rfl, rfl⟩

theorem num_frame (ext : ScanExt) (st : ScanState) (tv : Tokenval) :
    (stdscan_num ext st tv).st.buf = st.buf ∧
    (stdscan_num ext st tv).st.pushback = st.pushback ∧
    (stdscan_num ext st tv).st.sstate = st.sstate := by
  unfold stdscan_num
  split_ifs <;> exact ⟨rfl, rfl, rfl⟩

theorem str_frame (ext : ScanExt) (st : ScanState) (tv : Tokenval) :
    (stdscan_str ext st tv).st.buf = st.buf ∧
    (stdscan_str ext st tv).st.pushback = st.pushback ∧
    (stdscan_str ext st tv).st.sstate = st.sstate := by
  unfold stdscan_str
  split_ifs <;> exact ⟨rfl, rfl, rfl⟩

theorem braces_frame (ext : ScanExt) (st : ScanState) (tv : Tokenval) :
    (stdscan_parse_braces ext st tv).st.buf = st.buf ∧
    (stdscan_parse_braces ext st tv).st.pushback = st.pushback ∧
    (stdscan_parse_braces ext st tv).st.sstate = st.sstate := by
  unfold stdscan_parse_braces
  split_ifs <;> first
    | exact ⟨rfl, rfl, rfl⟩
    | (rw [handle_brace_frame]; exact ⟨rfl, rfl, rfl⟩)

theorem opchar_frame (st : ScanState) (tv : Tokenval) :
    (stdscan_opchar st tv).st.buf = st.buf ∧
    (stdscan_opchar st tv).st.pushback = st.pushback ∧
    (stdscan_opchar st tv).st.sstate = st.sstate := by
  unfold stdscan_opchar
  split
  · exact ⟨rfl, rfl, rfl⟩
  · split <;> exact ⟨rfl, rfl, rfl⟩

theorem token_frame (ext : ScanExt) (st : ScanState) (tv : Tokenval) :
    (stdscan_token ext st tv).st.buf = st.buf ∧
    (stdscan_token ext st tv).st.pushback = st.pushback ∧
    (stdscan_token ext st tv).st.sstate = st.sstate := by
  unfold stdscan_token
  split_ifs
  · exact id_frame ext st tv
  · exact dollar_frame st tv
  · exact num_frame ext st tv
  · exact str_frame ext st tv
  · exact braces_frame ext st tv
  · exact opchar_frame st tv

theorem scan_frame (ext : ScanExt) (st : ScanState) (tv : Tokenval) :
    (stdscan ext st tv).st.buf = st.buf := by
  unfold stdscan
  rcases h : st.pushback with - | ⟨a, l⟩
  · simp only [h]
    split_ifs with h1
    · rfl
    · unfold recordLen
      exact (token_frame ext _ _).1
  · simp only [h]

theorem scan_pushback_empty (ext : ScanExt) (st : ScanState) (tv : Tokenval)
    (h : st.pushback = []) : (stdscan ext st tv).st.pushback = [] := by
  unfold stdscan
  simp only [h]
  split_ifs with h1
  · rfl
  · unfold recordLen
    exact (token_frame ext _ _).2.1

/-! Wrappers for the three `scanWhile` loops. -/

theorem skip_spaces_ge (buf : List Char) (p : Nat) : p ≤ nasm_skip_spaces buf p :=
  le_scanFrom _ buf p

theorem skip_spaces_le (buf : List Char) (p : Nat) (h : p ≤ buf.length) :
    nasm_skip_spaces buf p ≤ buf.length :=
  scanFrom_le _ buf p h

theorem skip_spaces_append (buf junk : List Char) (p : Nat) (h : p ≤ buf.length) :
    nasm_skip_spaces (buf ++ NUL :: junk) p = nasm_skip_spaces buf p :=
  scanFrom_append (by decide) buf junk p h

theorem skip_spaces_stop (buf : List Char) (p : Nat) :
    nasm_isspace (getc buf (nasm_skip_spaces buf p)) = false :=
  scanFrom_stop (by decide) buf p

theorem skip_spaces_idem (buf : List Char) (p : Nat) :
    nasm_skip_spaces buf (nasm_skip_spaces buf p) = nasm_skip_spaces buf p :=
  scanFrom_idem (skip_spaces_stop buf p)

theorem idloop_ge (buf : List Char) (p : Nat) : p ≤ idloop buf p :=
  le_scanFrom _ buf p

theorem idloop_le (buf : List Char) (p : Nat) (h : p ≤ buf.length) :
    idloop buf p ≤ buf.length :=
  scanFrom_le _ buf p h

theorem idloop_append (buf junk : List Char) (p : Nat) (h : p ≤ buf.length) :
    idloop (buf ++ NUL :: junk) p = idloop buf p :=
  scanFrom_append (by decide) buf junk p h

theorem brcloop_ge (buf : List Char) (p : Nat) : p ≤ brcloop buf p :=
  le_scanFrom _ buf p

theorem brcloop_le (buf : List Char) (p : Nat) (h : p ≤ buf.length) :
    brcloop buf p ≤ buf.length :=
  scanFrom_le _ buf p h

theorem brcloop_append (buf junk : List Char) (p : Nat) (h : p ≤ buf.length) :
    brcloop (buf ++ NUL :: junk) p = brcloop buf p :=
  scanFrom_append (by decide) buf junk p h

/-! Reduction lemmas for the top-level entry and the classifier dispatch. -/

theorem stdscan_push_step (ext : ScanExt) (st : ScanState) (tv ts : Tokenval)
    (rest : List Tokenval) (h : st.pushback = ts :: rest) :
    stdscan ext st tv = { st := { st with pushback := rest }, tv := ts, diags := [] } := by
  unfold stdscan
  simp only [h]

theorem stdscan_eos_step (ext : ScanExt) (st : ScanState) (tv : Tokenval)
    (hpb : st.pushback = [])
    (hnul : getc st.buf (nasm_skip_spaces st.buf st.bufptr) = NUL) :
    stdscan ext st tv =
      { st := { st with bufptr := nasm_skip_spaces st.buf st.bufptr },
        tv := { t_start := nasm_skip_spaces st.buf st.bufptr, t_type := TOKEN_EOS },
        diags := [] } := by
  unfold stdscan
  simp only [hpb]
  rw [if_pos hnul]

theorem stdscan_tok_step (ext : ScanExt) (st : ScanState) (tv : Tokenval)
    (hpb : st.pushback = [])
    (hnn : ¬(getc st.buf (nasm_skip_spaces st.buf st.bufptr) = NUL)) :
    stdscan ext st tv =
      recordLen (stdscan_token ext { st with bufptr := nasm_skip_spaces st.buf st.bufptr }
        { t_start := nasm_skip_spaces st.buf st.bufptr }) := by
  unfold stdscan
  simp only [hpb]
  rw [if_neg hnn]

theorem token_sel_id (ext : ScanExt) (st : ScanState) (tv : Tokenval)
    (h1 : nasm_isidstart (getc st.buf st.bufptr) = true ∨
      (getc st.buf st.bufptr = '$' ∧ nasm_isidstart (getc st.buf (st.bufptr + 1)) = true)) :
    stdscan_token ext st tv = stdscan_id ext st tv := by
  unfold stdscan_token
  rw [if_pos h1]

theorem token_sel_dollar (ext : ScanExt) (st : ScanState) (tv : Tokenval)
    (h1 : ¬(nasm_isidstart (getc st.buf st.bufptr) = true ∨
      (getc st.buf st.bufptr = '$' ∧ nasm_isidstart (getc st.buf (st.bufptr + 1)) = true)))
    (h2 : getc st.buf st.bufptr = '$' ∧ ¬(nasm_isnumchar (getc st.buf (st.bufptr + 1)) = true)) :
    stdscan_token ext st tv = stdscan_dollar st tv := by
  unfold stdscan_token
  rw [if_neg h1, if_pos h2]

theorem token_sel_num (ext : ScanExt) (st : ScanState) (tv : Tokenval)
    (h1 : ¬(nasm_isidstart (getc st.buf st.bufptr) = true ∨
      (getc st.buf st.bufptr = '$' ∧ nasm_isidstart (getc st.buf (st.bufptr + 1)) = true)))
    (h2 : ¬(getc st.buf st.bufptr = '$' ∧ ¬(nasm_isnumchar (getc st.buf (st.bufptr + 1)) = true)))
    (h3 : nasm_isnumstart (getc st.buf st.bufptr) = true) :
    stdscan_token ext st tv = stdscan_num ext st tv := by
  unfold stdscan_token
  rw [if_neg h1, if_neg h2, if_pos h3]

theorem token_sel_str (ext : ScanExt) (st : ScanState) (tv : Tokenval)
    (h1 : ¬(nasm_isidstart (getc st.buf st.bufptr) = true ∨
      (getc st.buf st.bufptr = '$' ∧ nasm_isidstart (getc st.buf (st.bufptr + 1)) = true)))
    (h2 : ¬(getc st.buf st.bufptr = '$' ∧ ¬(nasm_isnumchar (getc st.buf (st.bufptr + 1)) = true)))
    (h3 : ¬(nasm_isnumstart (getc st.buf st.bufptr) = true))
    (h4 : getc st.buf st.bufptr = QUOTE1 ∨ getc st.buf st.bufptr = QUOTE2 ∨
      getc st.buf st.bufptr = BACKQUOTE) :
    stdscan_token ext st tv = stdscan_str ext st tv := by
  unfold stdscan_token
  rw [if_neg h1, if_neg h2, if_neg h3, if_pos h4]

theorem token_sel_braces (ext : ScanExt) (st : ScanState) (tv : Tokenval)
    (h1 : ¬(nasm_isidstart (getc st.buf st.bufptr) = true ∨
      (getc st.buf st.bufptr = '$' ∧ nasm_isidstart (getc st.buf (st.bufptr + 1)) = true)))
    (h2 : ¬(getc st.buf st.bufptr = '$' ∧ ¬(nasm_isnumchar (getc st.buf (st.bufptr + 1)) = true)))
    (h3 : ¬(nasm_isnumstart (getc st.buf st.bufptr) = true))
    (h4 : ¬(getc st.buf st.bufptr = QUOTE1 ∨ getc st.buf st.bufptr = QUOTE2 ∨
      getc st.buf st.bufptr = BACKQUOTE))
    (h5 : getc st.buf st.bufptr = LBRACE) :
    stdscan_token ext st tv = stdscan_parse_braces ext st tv := by
  unfold stdscan_token
  rw [if_neg h1, if_neg h2, if_neg h3, if_neg h4, if_pos h5]

theorem token_sel_opchar (ext : ScanExt) (st : ScanState) (tv : Tokenval)
    (h1 : ¬(nasm_isidstart (getc st.buf st.bufptr) = true ∨
      (getc st.buf st.bufptr = '$' ∧ nasm_isidstart (getc st.buf (st.bufptr + 1)) = true)))
    (h2 : ¬(getc st.buf st.bufptr = '$' ∧ ¬(nasm_isnumchar (getc st.buf (st.bufptr + 1)) = true)))
    (h3 : ¬(nasm_isnumstart (getc st.buf st.bufptr) = true))
    (h4 : ¬(getc st.buf st.bufptr = QUOTE1 ∨ getc st.buf st.bufptr = QUOTE2 ∨
      getc st.buf st.bufptr = BACKQUOTE))
    (h5 : ¬(getc st.buf st.bufptr = LBRACE)) :
    stdscan_token ext st tv = stdscan_opchar st tv := by
  unfold stdscan_token
  rw [if_neg h1, if_neg h2, if_neg h3, if_neg h4, if_neg h5]

/-! Iterated scanning preserves the line buffer. -/

theorem scanIter_buf (ext : ScanExt) :
    ∀ (n : Nat) (st : ScanState), (stdscanIter ext st n).1.buf = st.buf := by
  intro n
  induction n with
  | zero => intro st; rfl
  | succ m ih =>
    intro st
    cases m with
    | zero =>
      show (stdscan ext st {}).st.buf = st.buf
      exact scan_frame ext st {}
    | succ k =>
      show (stdscanIter ext (stdscan ext st {}).st (k + 1)).1.buf = st.buf
      rw [ih (stdscan ext st {}).st]
      exact scan_frame ext st {}

/-- C5: a pushed-back token is re-delivered by the next scan with every field
unchanged and the scanner state fully restored (cursor untouched), and two
pushbacks A then B are re-delivered in LIFO order: B first, then A. -/
theorem stdscan_pushback_lifo_C5 (ext : ScanExt) (st : ScanState) (A B tvIn tvIn2 : Tokenval) :
    (stdscan ext (stdscan_pushback st A) tvIn).tv = A ∧
    (stdscan ext (stdscan_pushback st A) tvIn).st = st ∧
    (stdscan ext (stdscan_pushback st A) tvIn).st.bufptr = st.bufptr ∧
    (stdscan ext (stdscan_pushback (stdscan_pushback st A) B) tvIn).tv = B ∧
    (stdscan ext (stdscan_pushback (stdscan_pushback st A) B) tvIn).st = stdscan_pushback st A ∧
    (stdscan ext (stdscan ext (stdscan_pushback (stdscan_pushback st A) B) tvIn).st tvIn2).tv = A ∧
    (stdscan ext (stdscan ext (stdscan_pushback (stdscan_pushback st A) B) tvIn).st tvIn2).st = st :=
  ⟨rfl, rfl, rfl, rfl, rfl, rfl, rfl⟩

/-- C9: no scan ever writes to the caller-owned line buffer: its contents are
identical before and after any single scan and after any number of scans. -/
theorem stdscan_buffer_immutable_C9 (ext : ScanExt) (st : ScanState) (tv : Tokenval) (n : Nat) :
    (stdscan ext st tv).st.buf = st.buf ∧ (stdscanIter ext st n).1.buf = st.buf :=
  ⟨scan_frame ext st tv, scanIter_buf ext n st⟩

/-- The operator/character tail never assigns the text pointer or the integer
payload. -/
theorem opchar_fields (st : ScanState) (tv : Tokenval) :
    (stdscan_opchar st tv).tv.t_charptr = tv.t_charptr ∧
    (stdscan_opchar st tv).tv.t_integer = tv.t_integer := by
  unfold stdscan_opchar
  split
  · exact ⟨rfl, rfl⟩
  · split <;> exact ⟨rfl, rfl⟩

/-- The integer path of the numeric branch frees its scratch arena entry and
delivers a NULL text pointer (for both the converted and the malformed case). -/
theorem num_intpath (ext : ScanExt) (st : ScanState) (tv : Tokenval)
    (hfl : num_isFloat st.buf st.bufptr = false) (hcp : tv.t_charptr = CharPtr.null) :
    (stdscan_num ext st tv).st.arena = st.arena ∧
    (stdscan_num ext st tv).tv.t_charptr = CharPtr.null := by
  unfold stdscan_num
  rw [if_neg (by simp [hfl])]
  split_ifs
  · exact ⟨rfl, hcp⟩
  · exact ⟨rfl, rfl⟩

/-- The scan result never depends on the token record handed in: the C code
either overwrites it from the pushback stack or zeroes it (`nasm_zero`). -/
theorem stdscan_out_indep (ext : ScanExt) (st : ScanState) (tvA tvB : Tokenval) :
    stdscan ext st tvA = stdscan ext st tvB := by
  unfold stdscan
  rfl

/-- C10: with an empty pushback stack the output token is zeroed first, so the
scan result never depends on the token record handed in; a scan that reaches
the operator/single-character tail delivers a NULL text pointer and a zero
integer payload; and the integer-literal path leaves the arena exactly as it
found it (scratch copy freed) and delivers a NULL text pointer for both the
converted-number and the malformed-number outcome. -/
theorem stdscan_zero_fields_C10 (ext : ScanExt) (st st1 st2 : ScanState)
    (tvA tvB tv1 tv2 : Tokenval)
    (hpb1 : st1.pushback = [])
    (hnn1 : ¬(getc st1.buf (nasm_skip_spaces st1.buf st1.bufptr) = NUL))
    (hg1 : ¬(nasm_isidstart (getc st1.buf (nasm_skip_spaces st1.buf st1.bufptr)) = true ∨
      (getc st1.buf (nasm_skip_spaces st1.buf st1.bufptr) = '$' ∧
        nasm_isidstart (getc st1.buf (nasm_skip_spaces st1.buf st1.bufptr + 1)) = true)))
    (hg2 : ¬(getc st1.buf (nasm_skip_spaces st1.buf st1.bufptr) = '$' ∧
      ¬(nasm_isnumchar (getc st1.buf (nasm_skip_spaces st1.buf st1.bufptr + 1)) = true)))
    (hg3 : ¬(nasm_isnumstart (getc st1.buf (nasm_skip_spaces st1.buf st1.bufptr)) = true))
    (hg4 : ¬(getc st1.buf (nasm_skip_spaces st1.buf st1.bufptr) = QUOTE1 ∨
      getc st1.buf (nasm_skip_spaces st1.buf st1.bufptr) = QUOTE2 ∨
      getc st1.buf (nasm_skip_spaces st1.buf st1.bufptr) = BACKQUOTE))
    (hg5 : ¬(getc st1.buf (nasm_skip_spaces st1.buf st1.bufptr) = LBRACE))
    (hpb2 : st2.pushback = [])
    (hnn2 : ¬(getc st2.buf (nasm_skip_spaces st2.buf st2.bufptr) = NUL))
    (hk1 : ¬(nasm_isidstart (getc st2.buf (nasm_skip_spaces st2.buf st2.bufptr)) = true ∨
      (getc st2.buf (nasm_skip_spaces st2.buf st2.bufptr) = '$' ∧
        nasm_isidstart (getc st2.buf (nasm_skip_spaces st2.buf st2.bufptr + 1)) = true)))
    (hk2 : ¬(getc st2.buf (nasm_skip_spaces st2.buf st2.bufptr) = '$' ∧
      ¬(nasm_isnumchar (getc st2.buf (nasm_skip_spaces st2.buf st2.bufptr + 1)) = true)))
    (hk3 : nasm_isnumstart (getc st2.buf (nasm_skip_spaces st2.buf st2.bufptr)) = true)
    (hfl : num_isFloat st2.buf (nasm_skip_spaces st2.buf st2.bufptr) = false) :
    stdscan ext st tvA = stdscan ext st tvB ∧
    (stdscan ext st1 tv1).tv.t_charptr = CharPtr.null ∧
    (stdscan ext st1 tv1).tv.t_integer = 0 ∧
    (stdscan ext st2 tv2).st.arena = st2.arena ∧
    (stdscan ext st2 tv2).tv.t_charptr = CharPtr.null := by
  have e1 := token_sel_opchar ext
    { st1 with bufptr := nasm_skip_spaces st1.buf st1.bufptr }
    { t_start := nasm_skip_spaces st1.buf st1.bufptr } hg1 hg2 hg3 hg4 hg5
  have e2 := token_sel_num ext
    { st2 with bufptr := nasm_skip_spaces st2.buf st2.bufptr }
    { t_start := nasm_skip_spaces st2.buf st2.bufptr } hk1 hk2 hk3
  refine ⟨stdscan_out_indep ext st tvA tvB, ?_, ?_, ?_, ?_⟩
  · rw [stdscan_tok_step ext st1 tv1 hpb1 hnn1, e1]
    exact (opchar_fields _ _).1
  · rw [stdscan_tok_step ext st1 tv1 hpb1 hnn1, e1]
    exact (opchar_fields _ _).2
  · rw [stdscan_tok_step ext st2 tv2 hpb2 hnn2, e2]
    exact (num_intpath ext { st2 with bufptr := nasm_skip_spaces st2.buf st2.bufptr }
      { t_start := nasm_skip_spaces st2.buf st2.bufptr } hfl rfl).1
  · rw [stdscan_tok_step ext st2 tv2 hpb2 hnn2, e2]
    exact (num_intpath ext { st2 with bufptr := nasm_skip_spaces st2.buf st2.bufptr }
      { t_start := nasm_skip_spaces st2.buf st2.bufptr } hfl rfl).2

/-- C10 witness: the claim instantiated on the line `+` (single-character
token) and the line `12` (integer literal). -/
theorem stdscan_zero_fields_C10_witness :
    stdscan ext_spec (stdscan_reset ['a']) {} = stdscan ext_spec (stdscan_reset ['a']) { t_integer := 5 } ∧
    (stdscan ext_spec (stdscan_reset ['+']) {}).tv.t_charptr = CharPtr.null ∧
    (stdscan ext_spec (stdscan_reset ['+']) {}).tv.t_integer = 0 ∧
    (stdscan ext_spec (stdscan_reset ['1', '2']) {}).st.arena = (stdscan_reset ['1', '2']).arena ∧
    (stdscan ext_spec (stdscan_reset ['1', '2']) {}).tv.t_charptr = CharPtr.null :=
  stdscan_zero_fields_C10 ext_spec (stdscan_reset ['a']) (stdscan_reset ['+'])
    (stdscan_reset ['1', '2']) {} { t_integer := 5 } {} {}
    (by decide) (by decide) (by decide) (by decide) (by decide) (by decide) (by decide)
    (by decide) (by decide) (by decide) (by decide) (by decide) (by decide)

/-- The float path of the numeric branch: a literal resolved floating-point is
emitted as a float token carrying the verbatim matched text; the cursor ends
just past the literal. -/
theorem num_float_path (ext : ScanExt) (st : ScanState) (tv : Tokenval)
    (hfl : num_isFloat st.buf st.bufptr = true) :
    (stdscan_num ext st tv).tv.t_type = TOKEN_FLOAT ∧
    (stdscan_num ext st tv).tv.t_charptr = CharPtr.arena (num_text st.buf st.bufptr) ∧
    (stdscan_num ext st tv).st.bufptr = (num_ns st.buf st.bufptr).pos := by
  unfold stdscan_num
  rw [if_pos hfl]
  exact ⟨rfl, rfl, rfl⟩

/-- C2: `1e13` scans as a float token with verbatim text `1e13`, while `1e13h`
scans as an integer token whose value is the hex numeral 0x1E13 = 7699; in
general a numeric literal whose scan saw an exponent character while never
marked hexadecimal is classified floating-point regardless of other signals. -/
theorem numeric_exponent_resolution_C2 (ext : ScanExt) (st : ScanState) (tv : Tokenval)
    (hhe : (num_ns st.buf st.bufptr).has_e = true)
    (hhx : (num_ns st.buf st.bufptr).is_hex = false) :
    (stdscan ext_spec (stdscan_reset ['1', 'e', '1', '3']) {}).tv =
      { t_type := TOKEN_FLOAT, t_charptr := CharPtr.arena ['1', 'e', '1', '3'], t_len := 4 } ∧
    (stdscan ext_spec (stdscan_reset ['1', 'e', '1', '3', 'h']) {}).tv =
      { t_type := TOKEN_NUM, t_integer := 7699, t_len := 5 } ∧
    (stdscan_num ext st tv).tv.t_type = TOKEN_FLOAT ∧
    (stdscan_num ext st tv).tv.t_charptr = CharPtr.arena (num_text st.buf st.bufptr) := by
  have hfl : num_isFloat st.buf st.bufptr = true := by
    simp [num_isFloat, hhe, hhx]
  exact ⟨by decide, by decide,
    (num_float_path ext st tv hfl).1, (num_float_path ext st tv hfl).2.1⟩

/-- C2 witness: the resolution rule applied to the literal `1e13` itself. -/
theorem numeric_exponent_resolution_C2_witness :
    (stdscan ext_spec (stdscan_reset ['1', 'e', '1', '3']) {}).tv =
      { t_type := TOKEN_FLOAT, t_charptr := CharPtr.arena ['1', 'e', '1', '3'], t_len := 4 } ∧
    (stdscan ext_spec (stdscan_reset ['1', 'e', '1', '3', 'h']) {}).tv =
      { t_type := TOKEN_NUM, t_integer := 7699, t_len := 5 } ∧
    (stdscan_num ext_spec (stdscan_reset ['1', 'e', '1', '3']) {}).tv.t_type = TOKEN_FLOAT ∧
    (stdscan_num ext_spec (stdscan_reset ['1', 'e', '1', '3']) {}).tv.t_charptr =
      CharPtr.arena (num_text (stdscan_reset ['1', 'e', '1', '3']).buf
        (stdscan_reset ['1', 'e', '1', '3']).bufptr) :=
  numeric_exponent_resolution_C2 ext_spec (stdscan_reset ['1', 'e', '1', '3']) {}
    (by decide) (by decide)

/-- C3 counterexample: in `$1e+3` the `e` is immediately followed by `+`, yet
because the leading `$` already marked the literal hexadecimal the scanner
emits an integer token (value 0x1E of the literal `$1e`), not a float, and the
cursor stops at offset 3 — the `+` is NOT consumed as part of the literal. -/
theorem hex_e_sign_C3_counterexample :
    (stdscan ext_spec (stdscan_reset ['$', '1', 'e', '+', '3']) {}).tv.t_type = TOKEN_NUM ∧
    ¬(TOKEN_NUM = TOKEN_FLOAT) ∧
    (stdscan ext_spec (stdscan_reset ['$', '1', 'e', '+', '3']) {}).st.bufptr = 3 := by
  decide

/-- C3 (amended): when an `e`/`E` is scanned while the literal is NOT yet
marked hexadecimal and a `+`/`-` follows immediately, the literal is
classified floating-point and the sign character is consumed as part of the
literal; a literal already marked hexadecimal treats `e` as a plain hex digit
instead.  A literal resolved floating-point is emitted as a float token. -/
theorem e_sign_float_C3 (buf : List Char) (p : Nat) (fl he : Bool)
    (ext : ScanExt) (st : ScanState) (tv : Tokenval)
    (hc : getc buf p = 'e' ∨ getc buf p = 'E')
    (hs : getc buf (p + 1) = '+' ∨ getc buf (p + 1) = '-')
    (hfl : num_isFloat st.buf st.bufptr = true) :
    numloop buf p false fl he = numloop buf (p + 2) false true true ∧
    (numloop buf p false fl he).is_float = true ∧
    (stdscan_num ext st tv).tv.t_type = TOKEN_FLOAT := by
  have hcn : getc buf p ≠ NUL := by rcases hc with h | h <;> rw [h] <;> decide
  have hsn : getc buf (p + 1) ≠ NUL := by rcases hs with h | h <;> rw [h] <;> decide
  cases hd : buf.drop p with
  | nil => exact absurd (by rw [getc, hd]; rfl) hcn
  | cons c rest =>
    have hc' : c = 'e' ∨ c = 'E' := by rw [← getc_of_drop hd]; exact hc
    cases hd2 : rest with
    | nil =>
      rw [hd2] at hd
      exact absurd (by rw [getc, drop_cons hd]; rfl) hsn
    | cons c2 rest2 =>
      rw [hd2] at hd
      have hs' : c2 = '+' ∨ c2 = '-' := by
        rw [← getc_of_drop (drop_cons hd)]; exact hs
      have hstep : numloop buf p false fl he = numloop buf (p + 2) false true true := by
        unfold numloop
        rw [hd, numAux_e_sign rest2 p fl he ⟨by simp, hc'⟩ hs',
          drop_cons (drop_cons hd)]
      refine ⟨hstep, ?_, (num_float_path ext st tv hfl).1⟩
      rw [hstep]
      exact numAux_float_mono _ _ _ _ _ rfl

/-- C3 witness: the amended rule applied to the literal `1e+3`. -/
theorem e_sign_float_C3_witness :
    numloop ['1', 'e', '+', '3'] 1 false false false =
      numloop ['1', 'e', '+', '3'] 3 false true true ∧
    (numloop ['1', 'e', '+', '3'] 1 false false false).is_float = true ∧
    (stdscan_num ext_spec (stdscan_reset ['1', 'e', '+', '3']) {}).tv.t_type = TOKEN_FLOAT :=
  e_sign_float_C3 ['1', 'e', '+', '3'] 1 false false ext_spec
    (stdscan_reset ['1', 'e', '+', '3']) {} (by decide) (by decide) (by decide)

/-- C4: a `p`/`P` scanned anywhere in a numeric literal marks it
floating-point — with or without any hex marking — and an immediately
following sign character is consumed as part of the literal; the resulting
token is a float token carrying the verbatim matched text. -/
theorem p_exponent_float_C4 (buf : List Char) (p : Nat) (hx fl he : Bool)
    (ext : ScanExt) (st : ScanState) (tv : Tokenval)
    (hc : getc buf p = 'P' ∨ getc buf p = 'p')
    (hfl : num_isFloat st.buf st.bufptr = true) :
    (numloop buf p hx fl he).is_float = true ∧
    ((getc buf (p + 1) = '+' ∨ getc buf (p + 1) = '-') →
      numloop buf p hx fl he = numloop buf (p + 2) hx true he) ∧
    (stdscan_num ext st tv).tv.t_type = TOKEN_FLOAT ∧
    (stdscan_num ext st tv).tv.t_charptr = CharPtr.arena (num_text st.buf st.bufptr) := by
  have hcn : getc buf p ≠ NUL := by rcases hc with h | h <;> rw [h] <;> decide
  cases hd : buf.drop p with
  | nil => exact absurd (by rw [getc, hd]; rfl) hcn
  | cons c rest =>
    have hc' : c = 'P' ∨ c = 'p' := by rw [← getc_of_drop hd]; exact hc
    have h1 : ¬(¬hx = true ∧ (c = 'e' ∨ c = 'E')) := by
      rintro ⟨-, h | h⟩ <;> rcases hc' with rfl | rfl <;> simp_all
    have h2 : ¬(c = 'H' ∨ c = 'h' ∨ c = 'X' ∨ c = 'x') := by
      rintro (h | h | h | h) <;> rcases hc' with rfl | rfl <;> simp_all
    refine ⟨?_, ?_, (num_float_path ext st tv hfl).1, (num_float_path ext st tv hfl).2.1⟩
    · unfold numloop
      rw [hd]
      cases hd2 : rest with
      | nil => rw [numAux_p_nil p fl he h1 h2 hc']
      | cons c2 rest2 =>
        by_cases hs : c2 = '+' ∨ c2 = '-'
        · rw [numAux_p_sign rest2 p fl he h1 h2 hc' hs]
          exact numAux_float_mono _ _ _ _ _ rfl
        · rw [numAux_p_nosign rest2 p fl he h1 h2 hc' hs]
          exact numAux_float_mono _ _ _ _ _ rfl
    · intro hs
      have hsn : getc buf (p + 1) ≠ NUL := by rcases hs with h | h <;> rw [h] <;> decide
      cases hd2 : rest with
      | nil =>
        rw [hd2] at hd
        exact absurd (by rw [getc, drop_cons hd]; rfl) hsn
      | cons c2 rest2 =>
        rw [hd2] at hd
        have hs' : c2 = '+' ∨ c2 = '-' := by
          rw [← getc_of_drop (drop_cons hd)]; exact hs
        unfold numloop
        rw [hd, numAux_p_sign rest2 p fl he h1 h2 hc' hs',
          drop_cons (drop_cons hd)]

/-- C4 witness: the rule applied to the hex-marked literal `$1p+3`. -/
theorem p_exponent_float_C4_witness :
    (numloop ['$', '1', 'p', '+', '3'] 2 true false false).is_float = true ∧
    ((getc ['$', '1', 'p', '+', '3'] 3 = '+' ∨ getc ['$', '1', 'p', '+', '3'] 3 = '-') →
      numloop ['$', '1', 'p', '+', '3'] 2 true false false =
        numloop ['$', '1', 'p', '+', '3'] 4 true true false) ∧
    (stdscan_num ext_spec (stdscan_reset ['$', '1', 'p', '+', '3']) {}).tv.t_type = TOKEN_FLOAT ∧
    (stdscan_num ext_spec (stdscan_reset ['$', '1', 'p', '+', '3']) {}).tv.t_charptr =
      CharPtr.arena (num_text (stdscan_reset ['$', '1', 'p', '+', '3']).buf
        (stdscan_reset ['$', '1', 'p', '+', '3']).bufptr) :=
  p_exponent_float_C4 ['$', '1', 'p', '+', '3'] 2 true false false ext_spec
    (stdscan_reset ['$', '1', 'p', '+', '3']) {} (by decide) (by decide)

/-- C6: in the identifier branch the stored text is the (possibly truncated)
copy of at most `IDLEN_MAX - 1` characters, pushed onto the arena, while the
cursor advances past the full spelling; and a `$`-forced identifier, or one
whose raw spelling exceeds `MAX_KEYWORD` characters, comes back as a plain
identifier token with untouched flags, independent of the keyword table. -/
theorem identifier_copy_bypass_C6 (ext1 ext2 : ScanExt) (st : ScanState) (tv : Tokenval)
    (hg : nasm_isidstart (getc st.buf st.bufptr) = true ∨
      (getc st.buf st.bufptr = '$' ∧ nasm_isidstart (getc st.buf (st.bufptr + 1)) = true)) :
    (stdscan_token ext1 st tv).st.bufptr = id_e st.buf st.bufptr ∧
    (stdscan_token ext1 st tv).st.arena = id_text st.buf st.bufptr :: st.arena ∧
    (id_text st.buf st.bufptr).length ≤ IDLEN_MAX - 1 ∧
    ((id_is_sym st.buf st.bufptr = true ∨ id_len st.buf st.bufptr > MAX_KEYWORD) →
      (stdscan_token ext1 st tv = stdscan_token ext2 st tv ∧
       (stdscan_token ext1 st tv).tv.t_type = TOKEN_ID ∧
       (stdscan_token ext1 st tv).tv.t_flag = tv.t_flag ∧
       (stdscan_token ext1 st tv).tv.t_integer = tv.t_integer)) := by
  rw [token_sel_id ext1 st tv hg, token_sel_id ext2 st tv hg]
  refine ⟨?_, ?_, ?_, ?_⟩
  · unfold stdscan_id
    split_ifs <;> rfl
  · unfold stdscan_id
    split_ifs <;> rfl
  · have hlen : (id_text st.buf st.bufptr).length ≤ id_copyLen st.buf st.bufptr := by
      unfold id_text bufSub
      simp [List.length_take]
    have hcl : id_copyLen st.buf st.bufptr ≤ IDLEN_MAX - 1 := by
      unfold id_copyLen
      split_ifs with h
      · omega
      · omega
    omega
  · intro hbp
    unfold stdscan_id
    rw [if_pos hbp, if_pos hbp]
    exact ⟨rfl, rfl, rfl, rfl⟩

/-- C6 witness: the `$`-forced identifier `$abc`. -/
theorem identifier_copy_bypass_C6_witness :
    (stdscan_token ext_spec (stdscan_reset ['$', 'a', 'b', 'c']) {}).st.bufptr =
      id_e ['$', 'a', 'b', 'c'] 0 ∧
    (stdscan_token ext_spec (stdscan_reset ['$', 'a', 'b', 'c']) {}).st.arena =
      id_text ['$', 'a', 'b', 'c'] 0 :: (stdscan_reset ['$', 'a', 'b', 'c']).arena ∧
    (id_text ['$', 'a', 'b', 'c'] 0).length ≤ IDLEN_MAX - 1 ∧
    ((id_is_sym ['$', 'a', 'b', 'c'] 0 = true ∨ id_len ['$', 'a', 'b', 'c'] 0 > MAX_KEYWORD) →
      (stdscan_token ext_spec (stdscan_reset ['$', 'a', 'b', 'c']) {} =
        stdscan_token { ext_spec with is_opmask := fun _ => true }
          (stdscan_reset ['$', 'a', 'b', 'c']) {} ∧
       (stdscan_token ext_spec (stdscan_reset ['$', 'a', 'b', 'c']) {}).tv.t_type = TOKEN_ID ∧
       (stdscan_token ext_spec (stdscan_reset ['$', 'a', 'b', 'c']) {}).tv.t_flag =
         ({} : Tokenval).t_flag ∧
       (stdscan_token ext_spec (stdscan_reset ['$', 'a', 'b', 'c']) {}).tv.t_integer =
         ({} : Tokenval).t_integer)) :=
  identifier_copy_bypass_C6 ext_spec { ext_spec with is_opmask := fun _ => true }
    (stdscan_reset ['$', 'a', 'b', 'c']) {} (by decide)

/-- C7: for a braced lexeme, a missing closing brace yields an invalid token
after the unterminated-braces diagnostic with the cursor left at the
offending position; over-length content with a closing brace still advances
past the brace and yields an invalid token after a diagnostic naming the
content; in-bounds content with a closing brace is copied and resolved via
keyword lookup through the brace handler.  On the line `{foo` the cursor is
left at end-of-line. -/
theorem braced_token_errors_C7 (ext : ScanExt) (st : ScanState) (tv : Tokenval)
    (hbr : getc st.buf st.bufptr = LBRACE) :
    ((¬(getc st.buf (brc_close st.buf st.bufptr) = RBRACE)) →
      ((stdscan_token ext st tv).tv.t_type = TOKEN_INVALID ∧
       (stdscan_token ext st tv).st.bufptr = brc_close st.buf st.bufptr ∧
       (stdscan_token ext st tv).diags = [Diag.unterminated_braces])) ∧
    ((getc st.buf (brc_close st.buf st.bufptr) = RBRACE ∧
        brc_len st.buf st.bufptr > MAX_KEYWORD) →
      ((stdscan_token ext st tv).tv.t_type = TOKEN_INVALID ∧
       (stdscan_token ext st tv).st.bufptr = brc_close st.buf st.bufptr + 1 ∧
       (stdscan_token ext st tv).diags =
         [Diag.invalid_brace_long (brc_content st.buf st.bufptr)])) ∧
    ((getc st.buf (brc_close st.buf st.bufptr) = RBRACE ∧
        brc_len st.buf st.bufptr ≤ MAX_KEYWORD) →
      stdscan_token ext st tv =
        stdscan_handle_brace ext
          { st with bufptr := brc_close st.buf st.bufptr + 1
                  , arena := brc_content st.buf st.bufptr :: st.arena }
          (nasm_token_hash ext (brc_content st.buf st.bufptr)
            { tv with t_charptr := CharPtr.arena (brc_content st.buf st.bufptr) })) ∧
    (stdscan ext_spec (stdscan_reset [LBRACE, 'f', 'o', 'o']) {}).tv.t_type = TOKEN_INVALID ∧
    (stdscan ext_spec (stdscan_reset [LBRACE, 'f', 'o', 'o']) {}).st.bufptr = 4 ∧
    (stdscan ext_spec (stdscan_reset [LBRACE, 'f', 'o', 'o']) {}).diags =
      [Diag.unterminated_braces] := by
  have hg1 : ¬(nasm_isidstart (getc st.buf st.bufptr) = true ∨
      (getc st.buf st.bufptr = '$' ∧ nasm_isidstart (getc st.buf (st.bufptr + 1)) = true)) := by
    rintro (h | ⟨h, -⟩) <;> rw [hbr] at h <;> revert h <;> decide
  have hg2 : ¬(getc st.buf st.bufptr = '$' ∧
      ¬(nasm_isnumchar (getc st.buf (st.bufptr + 1)) = true)) := by
    rintro ⟨h, -⟩
    rw [hbr] at h
    revert h
    decide
  have hg3 : ¬(nasm_isnumstart (getc st.buf st.bufptr) = true) := by
    intro h
    rw [hbr] at h
    revert h
    decide
  have hg4 : ¬(getc st.buf st.bufptr = QUOTE1 ∨ getc st.buf st.bufptr = QUOTE2 ∨
      getc st.buf st.bufptr = BACKQUOTE) := by
    rintro (h | h | h) <;> rw [hbr] at h <;> revert h <;> decide
  rw [token_sel_braces ext st tv hg1 hg2 hg3 hg4 hbr]
  refine ⟨?_, ?_, ?_, by decide, by decide, by decide⟩
  · intro hnc
    unfold stdscan_parse_braces
    rw [if_pos hnc]
    exact ⟨rfl, rfl, rfl⟩
  · rintro ⟨hc, hlong⟩
    unfold stdscan_parse_braces
    rw [if_neg (by simp [hc]), if_pos hlong]
    exact ⟨rfl, rfl, rfl⟩
  · rintro ⟨hc, hshort⟩
    unfold stdscan_parse_braces
    rw [if_neg (by simp [hc]), if_neg (by omega)]
    unfold brc_arena brc_tv1
    rw [if_pos hshort, if_pos hshort]
    rfl

/-- C7 witness: the claim instantiated on the line `{foo`. -/
theorem braced_token_errors_C7_witness :
    ((¬(getc [LBRACE, 'f', 'o', 'o'] (brc_close [LBRACE, 'f', 'o', 'o'] 0) = RBRACE)) →
      ((stdscan_token ext_spec (stdscan_reset [LBRACE, 'f', 'o', 'o']) {}).tv.t_type =
         TOKEN_INVALID ∧
       (stdscan_token ext_spec (stdscan_reset [LBRACE, 'f', 'o', 'o']) {}).st.bufptr =
         brc_close [LBRACE, 'f', 'o', 'o'] 0 ∧
       (stdscan_token ext_spec (stdscan_reset [LBRACE, 'f', 'o', 'o']) {}).diags =
         [Diag.unterminated_braces])) ∧
    ((getc [LBRACE, 'f', 'o', 'o'] (brc_close [LBRACE, 'f', 'o', 'o'] 0) = RBRACE ∧
        brc_len [LBRACE, 'f', 'o', 'o'] 0 > MAX_KEYWORD) →
      ((stdscan_token ext_spec (stdscan_reset [LBRACE, 'f', 'o', 'o']) {}).tv.t_type =
         TOKEN_INVALID ∧
       (stdscan_token ext_spec (stdscan_reset [LBRACE, 'f', 'o', 'o']) {}).st.bufptr =
         brc_close [LBRACE, 'f', 'o', 'o'] 0 + 1 ∧
       (stdscan_token ext_spec (stdscan_reset [LBRACE, 'f', 'o', 'o']) {}).diags =
         [Diag.invalid_brace_long (brc_content [LBRACE, 'f', 'o', 'o'] 0)])) ∧
    ((getc [LBRACE, 'f', 'o', 'o'] (brc_close [LBRACE, 'f', 'o', 'o'] 0) = RBRACE ∧
        brc_len [LBRACE, 'f', 'o', 'o'] 0 ≤ MAX_KEYWORD) →
      stdscan_token ext_spec (stdscan_reset [LBRACE, 'f', 'o', 'o']) {} =
        stdscan_handle_brace ext_spec
          { stdscan_reset [LBRACE, 'f', 'o', 'o'] with
              bufptr := brc_close [LBRACE, 'f', 'o', 'o'] 0 + 1
            , arena := brc_content [LBRACE, 'f', 'o', 'o'] 0 ::
                (stdscan_reset [LBRACE, 'f', 'o', 'o']).arena }
          (nasm_token_hash ext_spec (brc_content [LBRACE, 'f', 'o', 'o'] 0)
            { ({} : Tokenval) with
                t_charptr := CharPtr.arena (brc_content [LBRACE, 'f', 'o', 'o'] 0) })) ∧
    (stdscan ext_spec (stdscan_reset [LBRACE, 'f', 'o', 'o']) {}).tv.t_type = TOKEN_INVALID ∧
    (stdscan ext_spec (stdscan_reset [LBRACE, 'f', 'o', 'o']) {}).st.bufptr = 4 ∧
    (stdscan ext_spec (stdscan_reset [LBRACE, 'f', 'o', 'o']) {}).diags =
      [Diag.unterminated_braces] :=
  braced_token_errors_C7 ext_spec (stdscan_reset [LBRACE, 'f', 'o', 'o']) {} (by decide)

/-! Toward C1: per-branch cursor-advance bounds. -/

/-- Replace the buffer component of a result state (used to compare scans of
extended buffers). -/
def withBuf (b : List Char) (r : TokRes) : TokRes :=
  { r with st := { r.st with buf := b } }

theorem isidstart_ne_nul {c : Char} (h : nasm_isidstart c = true) : c ≠ NUL := by
  rintro rfl
  exact absurd h (by decide)

theorem id_bufptr (ext : ScanExt) (st : ScanState) (tv : Tokenval) :
    (stdscan_id ext st tv).st.bufptr = id_e st.buf st.bufptr := by
  unfold stdscan_id
  split_ifs <;> rfl

theorem id_e_bounds (buf : List Char) (p : Nat)
    (hg : nasm_isidstart (getc buf p) = true ∨
      (getc buf p = '$' ∧ nasm_isidstart (getc buf (p + 1)) = true))
    (hp : p ≤ buf.length) :
    p < id_e buf p ∧ id_e buf p ≤ buf.length := by
  unfold id_e id_r id_is_sym
  by_cases hd : getc buf p = '$'
  · have hg2 : nasm_isidstart (getc buf (p + 1)) = true := by
      rcases hg with h | ⟨-, h⟩
      · rw [hd] at h
        exact absurd h (by decide)
      · exact h
    have h1 : p + 1 < buf.length := lt_of_getc_ne (isidstart_ne_nul hg2)
    simp only [hd, beq_self_eq_true, if_true]
    constructor
    · have := idloop_ge buf (p + 1 + 1)
      omega
    · exact idloop_le buf (p + 1 + 1) (by omega)
  · have hg1 : nasm_isidstart (getc buf p) = true := by
      rcases hg with h | ⟨h, -⟩
      · exact h
      · exact absurd h hd
    have h1 : p < buf.length := lt_of_getc_ne (isidstart_ne_nul hg1)
    rw [if_neg (by simp [hd])]
    constructor
    · have := idloop_ge buf (p + 1)
      omega
    · exact idloop_le buf (p + 1) (by omega)

theorem id_advance (ext : ScanExt) (st : ScanState) (tv : Tokenval)
    (hg : nasm_isidstart (getc st.buf st.bufptr) = true ∨
      (getc st.buf st.bufptr = '$' ∧ nasm_isidstart (getc st.buf (st.bufptr + 1)) = true))
    (hp : st.bufptr ≤ st.buf.length) :
    st.bufptr < (stdscan_id ext st tv).st.bufptr ∧
    (stdscan_id ext st tv).st.bufptr ≤ st.buf.length := by
  rw [id_bufptr]
  exact id_e_bounds st.buf st.bufptr hg hp

theorem dollar_advance (st : ScanState) (tv : Tokenval)
    (hd : getc st.buf st.bufptr = '$') :
    st.bufptr < (stdscan_dollar st tv).st.bufptr ∧
    (stdscan_dollar st tv).st.bufptr ≤ st.buf.length := by
  have h1 : st.bufptr < st.buf.length := lt_of_getc_ne (by rw [hd]; decide)
  unfold stdscan_dollar
  split_ifs with h2
  · have h3 : st.bufptr + 1 < st.buf.length := lt_of_getc_ne (by rw [h2]; decide)
    constructor <;> simp <;> omega
  · constructor <;> simp <;> omega

theorem num_bufptr (ext : ScanExt) (st : ScanState) (tv : Tokenval) :
    (stdscan_num ext st tv).st.bufptr = (num_ns st.buf st.bufptr).pos := by
  unfold stdscan_num
  split_ifs <;> rfl

theorem num_advance (ext : ScanExt) (st : ScanState) (tv : Tokenval)
    (hg : nasm_isnumstart (getc st.buf st.bufptr) = true)
    (hp : st.bufptr ≤ st.buf.length) :
    st.bufptr < (stdscan_num ext st tv).st.bufptr ∧
    (stdscan_num ext st tv).st.bufptr ≤ st.buf.length := by
  rw [num_bufptr]
  have h1 : st.bufptr < st.buf.length := by
    refine lt_of_getc_ne ?_
    intro hc
    rw [hc] at hg
    exact absurd hg (by decide)
  unfold num_ns num_hex0
  by_cases hd : getc st.buf st.bufptr = '$'
  · simp only [hd, beq_self_eq_true, if_true]
    constructor
    · have := numloop_ge st.buf (st.bufptr + 1) true false false
      omega
    · exact numloop_le st.buf (st.bufptr + 1) true false false (by omega)
  · have hdig : (getc st.buf st.bufptr).isDigit = true := by
      unfold nasm_isnumstart at hg
      rcases Bool.or_eq_true_iff.mp hg with h | h
      · exact h
      · exact absurd (by simpa using h) hd
    have hb : (getc st.buf st.bufptr == '$') = false := by simp [hd]
    rw [hb]
    simp only [if_false, Bool.false_eq_true]
    rw [numloop_digit st.buf st.bufptr false false false hdig]
    constructor
    · have := numloop_ge st.buf (st.bufptr + 1) false false false
      omega
    · exact numloop_le st.buf (st.bufptr + 1) false false false (by omega)

theorem str_advance (ext : ScanExt) (st : ScanState) (tv : Tokenval)
    (hq : getc st.buf st.bufptr = QUOTE1 ∨ getc st.buf st.bufptr = QUOTE2 ∨
      getc st.buf st.bufptr = BACKQUOTE)
    (hunq : ∀ q, q < st.buf.length →
      q < (ext.unquote st.buf q).1 ∧ (ext.unquote st.buf q).1 ≤ st.buf.length) :
    st.bufptr < (stdscan_str ext st tv).st.bufptr ∧
    (stdscan_str ext st tv).st.bufptr ≤ st.buf.length := by
  have h1 : st.bufptr < st.buf.length := by
    refine lt_of_getc_ne ?_
    rcases hq with h | h | h <;> rw [h] <;> decide
  obtain ⟨hu1, hu2⟩ := hunq st.bufptr h1
  unfold stdscan_str
  split_ifs with h2
  · have h3 : (ext.unquote st.buf st.bufptr).1 < st.buf.length := by
      refine lt_of_getc_ne ?_
      rw [h2]
      rcases hq with h | h | h <;> rw [h] <;> decide
    constructor <;> simp <;> omega
  · constructor <;> simp <;> omega

theorem braces_bufptr (ext : ScanExt) (st : ScanState) (tv : Tokenval) :
    (stdscan_parse_braces ext st tv).st.bufptr = brc_close st.buf st.bufptr ∨
    (getc st.buf (brc_close st.buf st.bufptr) = RBRACE ∧
      (stdscan_parse_braces ext st tv).st.bufptr = brc_close st.buf st.bufptr + 1) := by
  unfold stdscan_parse_braces
  by_cases hc : getc st.buf (brc_close st.buf st.bufptr) = RBRACE
  · rw [if_neg (by simp [hc])]
    by_cases hl : brc_len st.buf st.bufptr > MAX_KEYWORD
    · rw [if_pos hl]
      exact Or.inr ⟨hc, rfl⟩
    · rw [if_neg hl, handle_brace_frame]
      exact Or.inr ⟨hc, rfl⟩
  · rw [if_pos hc]
    exact Or.inl rfl

theorem brc_close_bounds (buf : List Char) (p : Nat) (hb : getc buf p = LBRACE)
    (hp : p ≤ buf.length) :
    p < brc_close buf p ∧ brc_close buf p ≤ buf.length := by
  have h1 : p < buf.length := lt_of_getc_ne (by rw [hb]; decide)
  unfold brc_close brc_e brc_r
  have h2 := skip_spaces_ge buf (p + 1)
  have h3 := skip_spaces_le buf (p + 1) (by omega)
  have h4 := brcloop_ge buf (nasm_skip_spaces buf (p + 1))
  have h5 := brcloop_le buf (nasm_skip_spaces buf (p + 1)) h3
  have h6 := skip_spaces_ge buf (brcloop buf (nasm_skip_spaces buf (p + 1)))
  have h7 := skip_spaces_le buf (brcloop buf (nasm_skip_spaces buf (p + 1))) h5
  omega

theorem braces_advance (ext : ScanExt) (st : ScanState) (tv : Tokenval)
    (hb : getc st.buf st.bufptr = LBRACE) (hp : st.bufptr ≤ st.buf.length) :
    st.bufptr < (stdscan_parse_braces ext st tv).st.bufptr ∧
    (stdscan_parse_braces ext st tv).st.bufptr ≤ st.buf.length := by
  obtain ⟨h1, h2⟩ := brc_close_bounds st.buf st.bufptr hb hp
  rcases braces_bufptr ext st tv with h | ⟨hc, h⟩
  · rw [h]
    omega
  · have h3 : brc_close st.buf st.bufptr < st.buf.length :=
      lt_of_getc_ne (by rw [hc]; decide)
    rw [h]
    omega

theorem matchAt_bound (buf : List Char) : ∀ (s : List Char) (p : Nat),
    matchAt buf p s = true → NUL ∉ s → p ≤ buf.length → p + s.length ≤ buf.length := by
  intro s
  induction s with
  | nil => intro p _ _ hp; simpa using hp
  | cons c cs ih =>
    intro p hm hn hp
    rw [matchAt, Bool.and_eq_true] at hm
    have hc : getc buf p = c := by simpa using hm.1
    have hcn : c ≠ NUL := by
      intro hcc
      exact hn (by rw [hcc]; exact List.mem_cons_self _ _)
    have h1 : p < buf.length := lt_of_getc_ne (by rw [hc]; exact hcn)
    have := ih (p + 1) hm.2 (fun hx => hn (List.mem_cons_of_mem _ hx)) (by omega)
    simp only [List.length_cons]
    omega

theorem opLookup_mem (buf : List Char) (p : Nat) :
    ∀ (tbl : List (List Char × Int)) (nty : Nat × Int),
    opLookup buf p tbl = some nty →
    ∃ e ∈ tbl, matchAt buf p e.1 = true ∧ nty = (e.1.length, e.2) := by
  intro tbl
  induction tbl with
  | nil => intro nty h; exact absurd h (by rw [opLookup]; simp)
  | cons e rest ih =>
    intro nty h
    rw [opLookup] at h
    split_ifs at h with hm
    · exact ⟨e, List.mem_cons_self _ _, hm, by injection h with h2; rw [← h2]⟩
    · obtain ⟨e2, he2, hm2, hn2⟩ := ih nty h
      exact ⟨e2, List.mem_cons_of_mem _ he2, hm2, hn2⟩

theorem opTable_entries :
    ∀ e ∈ opTable, e.2 ≠ TOKEN_EOS ∧ 0 < e.1.length ∧ NUL ∉ e.1 := by
  decide

theorem opchar_advance (st : ScanState) (tv : Tokenval)
    (hnn : getc st.buf st.bufptr ≠ NUL)
    (hsemi : ¬(getc st.buf st.bufptr = ';'))
    (hp : st.bufptr ≤ st.buf.length) :
    st.bufptr < (stdscan_opchar st tv).st.bufptr ∧
    (stdscan_opchar st tv).st.bufptr ≤ st.buf.length := by
  have h1 : st.bufptr < st.buf.length := lt_of_getc_ne hnn
  unfold stdscan_opchar
  rw [if_neg hsemi]
  cases ho : opLookup st.buf st.bufptr opTable with
  | none => constructor <;> simp <;> omega
  | some nty =>
    obtain ⟨e, he, hm, hn⟩ := opLookup_mem st.buf st.bufptr opTable nty ho
    obtain ⟨-, hlen, hnul⟩ := opTable_entries e he
    have hb := matchAt_bound st.buf e.1 st.bufptr hm hnul (by omega)
    constructor <;> simp <;> rw [hn] <;> simp <;> omega

theorem opchar_semi (st : ScanState) (tv : Tokenval) (hsemi : getc st.buf st.bufptr = ';') :
    stdscan_opchar st tv = { st := st, tv := { tv with t_type := TOKEN_EOS }, diags := [] } := by
  unfold stdscan_opchar
  rw [if_pos hsemi]

/-! Toward C1: no branch other than the comment case can deliver the
end-of-stream code. -/

theorem id_type_ne (ext : ScanExt) (st : ScanState) (tv : Tokenval)
    (hkw : ∀ s, (ext.token_hash s).ttype ≠ TOKEN_EOS) :
    (stdscan_id ext st tv).tv.t_type ≠ TOKEN_EOS := by
  unfold stdscan_id
  split_ifs <;> simp [id_tv2, id_tv1, nasm_token_hash] <;>
    first
      | decide
      | exact hkw _

theorem dollar_type_ne (st : ScanState) (tv : Tokenval) :
    (stdscan_dollar st tv).tv.t_type ≠ TOKEN_EOS := by
  unfold stdscan_dollar
  split_ifs <;> simp <;> decide

theorem num_type_ne (ext : ScanExt) (st : ScanState) (tv : Tokenval) :
    (stdscan_num ext st tv).tv.t_type ≠ TOKEN_EOS := by
  unfold stdscan_num
  split_ifs <;> simp <;> decide

theorem str_type_ne (ext : ScanExt) (st : ScanState) (tv : Tokenval) :
    (stdscan_str ext st tv).tv.t_type ≠ TOKEN_EOS := by
  unfold stdscan_str
  split_ifs <;> simp <;> decide

theorem handle_brace_type (ext : ScanExt) (st : ScanState) (tv : Tokenval) :
    (stdscan_handle_brace ext st tv).tv.t_type = TOKEN_INVALID ∨
    (stdscan_handle_brace ext st tv).tv.t_type = TOKEN_OPMASK ∨
    (stdscan_handle_brace ext st tv).tv.t_type = tv.t_type := by
  unfold stdscan_handle_brace
  split_ifs <;> simp

theorem braces_type_cases (ext : ScanExt) (st : ScanState) (tv : Tokenval) :
    (stdscan_parse_braces ext st tv).tv.t_type = TOKEN_INVALID ∨
    (stdscan_parse_braces ext st tv).tv.t_type = TOKEN_OPMASK ∨
    (stdscan_parse_braces ext st tv).tv.t_type =
      (ext.token_hash (charptrStr (brc_tv1 st.buf st.bufptr tv).t_charptr)).ttype := by
  unfold stdscan_parse_braces
  by_cases hc : getc st.buf (brc_close st.buf st.bufptr) = RBRACE
  · rw [if_neg (by simp [hc])]
    by_cases hl : brc_len st.buf st.bufptr > MAX_KEYWORD
    · rw [if_pos hl]
      exact Or.inl rfl
    · rw [if_neg hl]
      rcases handle_brace_type ext
        { st with bufptr := brc_close st.buf st.bufptr + 1, arena := brc_arena st }
        (nasm_token_hash ext (charptrStr (brc_tv1 st.buf st.bufptr tv).t_charptr)
          (brc_tv1 st.buf st.bufptr tv)) with h | h | h
      · exact Or.inl h
      · exact Or.inr (Or.inl h)
      · right
        right
        rw [h]
        rfl
  · rw [if_pos hc]
    exact Or.inl rfl

theorem braces_type_ne (ext : ScanExt) (st : ScanState) (tv : Tokenval)
    (hkw : ∀ s, (ext.token_hash s).ttype ≠ TOKEN_EOS) :
    (stdscan_parse_braces ext st tv).tv.t_type ≠ TOKEN_EOS := by
  rcases braces_type_cases ext st tv with h | h | h <;> rw [h]
  · decide
  · decide
  · exact hkw _

theorem opchar_type_ne (st : ScanState) (tv : Tokenval)
    (hnn : getc st.buf st.bufptr ≠ NUL)
    (hsemi : ¬(getc st.buf st.bufptr = ';'))
    (hbyte : ∀ c ∈ st.buf, 0 < c.toNat ∧ c.toNat < 256) :
    (stdscan_opchar st tv).tv.t_type ≠ TOKEN_EOS := by
  unfold stdscan_opchar
  rw [if_neg hsemi]
  cases ho : opLookup st.buf st.bufptr opTable with
  | none =>
    obtain ⟨hpos, hlt⟩ := hbyte (getc st.buf st.bufptr) (getc_mem hnn)
    simp [TOKEN_EOS]
    omega
  | some nty =>
    obtain ⟨e, he, hm, hn⟩ := opLookup_mem st.buf st.bufptr opTable nty ho
    obtain ⟨hne, -, -⟩ := opTable_entries e he
    simp [hn]
    exact hne

/-- Core single-token fact for C1: with the cursor on a non-NUL character,
the classifier keeps the cursor within the line; the only end-of-stream
outcome is the comment character, which leaves the state untouched; every
other outcome strictly advances the cursor. -/
theorem token_step_core (ext : ScanExt) (st : ScanState) (tv : Tokenval)
    (hp : st.bufptr ≤ st.buf.length)
    (hnn : getc st.buf st.bufptr ≠ NUL)
    (hkw : ∀ s, (ext.token_hash s).ttype ≠ TOKEN_EOS)
    (hbyte : ∀ c ∈ st.buf, 0 < c.toNat ∧ c.toNat < 256)
    (hunq : ∀ q, q < st.buf.length →
      q < (ext.unquote st.buf q).1 ∧ (ext.unquote st.buf q).1 ≤ st.buf.length) :
    (stdscan_token ext st tv).st.bufptr ≤ st.buf.length ∧
    ((stdscan_token ext st tv).tv.t_type = TOKEN_EOS →
      ((stdscan_token ext st tv).st = st ∧ getc st.buf st.bufptr = ';')) ∧
    ((stdscan_token ext st tv).tv.t_type ≠ TOKEN_EOS →
      st.bufptr < (stdscan_token ext st tv).st.bufptr) := by
  by_cases hg1 : nasm_isidstart (getc st.buf st.bufptr) = true ∨
      (getc st.buf st.bufptr = '$' ∧ nasm_isidstart (getc st.buf (st.bufptr + 1)) = true)
  · rw [token_sel_id ext st tv hg1]
    obtain ⟨ha, hb⟩ := id_advance ext st tv hg1 hp
    exact ⟨hb, fun h => absurd h (id_type_ne ext st tv hkw), fun _ => ha⟩
  · by_cases hg2 : getc st.buf st.bufptr = '$' ∧
        ¬(nasm_isnumchar (getc st.buf (st.bufptr + 1)) = true)
    · rw [token_sel_dollar ext st tv hg1 hg2]
      obtain ⟨ha, hb⟩ := dollar_advance st tv hg2.1
      exact ⟨hb, fun h => absurd h (dollar_type_ne st tv), fun _ => ha⟩
    · by_cases hg3 : nasm_isnumstart (getc st.buf st.bufptr) = true
      · rw [token_sel_num ext st tv hg1 hg2 hg3]
        obtain ⟨ha, hb⟩ := num_advance ext st tv hg3 hp
        exact ⟨hb, fun h => absurd h (num_type_ne ext st tv), fun _ => ha⟩
      · by_cases hg4 : getc st.buf st.bufptr = QUOTE1 ∨ getc st.buf st.bufptr = QUOTE2 ∨
            getc st.buf st.bufptr = BACKQUOTE
        · rw [token_sel_str ext st tv hg1 hg2 hg3 hg4]
          obtain ⟨ha, hb⟩ := str_advance ext st tv hg4 hunq
          exact ⟨hb, fun h => absurd h (str_type_ne ext st tv), fun _ => ha⟩
        · by_cases hg5 : getc st.buf st.bufptr = LBRACE
          · rw [token_sel_braces ext st tv hg1 hg2 hg3 hg4 hg5]
            obtain ⟨ha, hb⟩ := braces_advance ext st tv hg5 hp
            exact ⟨hb, fun h => absurd h (braces_type_ne ext st tv hkw), fun _ => ha⟩
          · rw [token_sel_opchar ext st tv hg1 hg2 hg3 hg4 hg5]
            by_cases hsemi : getc st.buf st.bufptr = ';'
            · rw [opchar_semi st tv hsemi]
              exact ⟨hp, fun _ => ⟨rfl, hsemi⟩, fun h => absurd rfl h⟩
            · obtain ⟨ha, hb⟩ := opchar_advance st tv hnn hsemi hp
              exact ⟨hb, fun h => absurd h (opchar_type_ne st tv hnn hsemi hbyte),
                fun _ => ha⟩

/-- Core single-scan fact for C1 at the `stdscan` level, for a state with no
pending pushback. -/
theorem scan_step_core (ext : ScanExt) (st : ScanState) (tv : Tokenval)
    (hpb : st.pushback = [])
    (hp : st.bufptr ≤ st.buf.length)
    (hkw : ∀ s, (ext.token_hash s).ttype ≠ TOKEN_EOS)
    (hbyte : ∀ c ∈ st.buf, 0 < c.toNat ∧ c.toNat < 256)
    (hunq : ∀ q, q < st.buf.length →
      q < (ext.unquote st.buf q).1 ∧ (ext.unquote st.buf q).1 ≤ st.buf.length) :
    (stdscan ext st tv).st.bufptr ≤ st.buf.length ∧
    ((stdscan ext st tv).tv.t_type = TOKEN_EOS →
      ((stdscan ext st tv).st.bufptr = nasm_skip_spaces st.buf st.bufptr ∧
       (getc st.buf (nasm_skip_spaces st.buf st.bufptr) = NUL ∨
        getc st.buf (nasm_skip_spaces st.buf st.bufptr) = ';'))) ∧
    ((stdscan ext st tv).tv.t_type ≠ TOKEN_EOS →
      st.bufptr < (stdscan ext st tv).st.bufptr) := by
  have hsle := skip_spaces_le st.buf st.bufptr hp
  have hsge := skip_spaces_ge st.buf st.bufptr
  by_cases hnul : getc st.buf (nasm_skip_spaces st.buf st.bufptr) = NUL
  · rw [stdscan_eos_step ext st tv hpb hnul]
    exact ⟨hsle, fun _ => ⟨rfl, Or.inl hnul⟩, fun h => absurd rfl h⟩
  · rw [stdscan_tok_step ext st tv hpb hnul]
    have hcore := token_step_core ext
      { st with bufptr := nasm_skip_spaces st.buf st.bufptr }
      { t_start := nasm_skip_spaces st.buf st.bufptr } hsle hnul hkw hbyte hunq
    obtain ⟨hc1, hc2, hc3⟩ := hcore
    refine ⟨hc1, ?_, ?_⟩
    · intro h
      obtain ⟨hst, hsemi⟩ := hc2 h
      constructor
      · show (stdscan_token ext _ _).st.bufptr = _
        rw [hst]
      · exact Or.inr hsemi
    · intro h
      exact lt_of_le_of_lt (Nat.le_of_lt_succ (Nat.lt_succ_of_le hsge)) (hc3 h)

theorem iter_one (ext : ScanExt) (st : ScanState) :
    stdscanIter ext st 1 = ((stdscan ext st {}).st, (stdscan ext st {}).tv) := rfl

theorem iter_succ_succ (ext : ScanExt) (st : ScanState) (m : Nat) :
    stdscanIter ext st (m + 2) = stdscanIter ext (stdscan ext st {}).st (m + 1) := rfl

/-- Once a state is at end-of-stream (the cursor sees only whitespace and then
the NUL, or whitespace and then the comment character), every further scan
keeps delivering the end-of-stream token. -/
theorem scan_eos_stable (ext : ScanExt) :
    ∀ (m : Nat) (st : ScanState), st.pushback = [] →
    (getc st.buf (nasm_skip_spaces st.buf st.bufptr) = NUL ∨
     getc st.buf (nasm_skip_spaces st.buf st.bufptr) = ';') →
    (stdscanIter ext st (m + 1)).2.t_type = TOKEN_EOS := by
  have hone : ∀ (st : ScanState), st.pushback = [] →
      (getc st.buf (nasm_skip_spaces st.buf st.bufptr) = NUL ∨
       getc st.buf (nasm_skip_spaces st.buf st.bufptr) = ';') →
      (stdscan ext st {}).tv.t_type = TOKEN_EOS ∧
      (stdscan ext st {}).st =
        { st with bufptr := nasm_skip_spaces st.buf st.bufptr } := by
    intro st hpb hq
    rcases hq with hq | hq
    · rw [stdscan_eos_step ext st {} hpb hq]
      exact ⟨rfl, rfl⟩
    · have hnn : ¬(getc st.buf (nasm_skip_spaces st.buf st.bufptr) = NUL) := by
        rw [hq]; decide
      rw [stdscan_tok_step ext st {} hpb hnn]
      have hg1 : ¬(nasm_isidstart
            (getc st.buf (nasm_skip_spaces st.buf st.bufptr)) = true ∨
          (getc st.buf (nasm_skip_spaces st.buf st.bufptr) = '$' ∧
            nasm_isidstart (getc st.buf (nasm_skip_spaces st.buf st.bufptr + 1)) = true)) := by
        rintro (h | ⟨h, -⟩) <;> rw [hq] at h <;> revert h <;> decide
      have hg2 : ¬(getc st.buf (nasm_skip_spaces st.buf st.bufptr) = '$' ∧
          ¬(nasm_isnumchar (getc st.buf (nasm_skip_spaces st.buf st.bufptr + 1)) = true)) := by
        rintro ⟨h, -⟩; rw [hq] at h; revert h; decide
      have hg3 : ¬(nasm_isnumstart (getc st.buf (nasm_skip_spaces st.buf st.bufptr)) = true) := by
        intro h; rw [hq] at h; revert h; decide
      have hg4 : ¬(getc st.buf (nasm_skip_spaces st.buf st.bufptr) = QUOTE1 ∨
          getc st.buf (nasm_skip_spaces st.buf st.bufptr) = QUOTE2 ∨
          getc st.buf (nasm_skip_spaces st.buf st.bufptr) = BACKQUOTE) := by
        rintro (h | h | h) <;> rw [hq] at h <;> revert h <;> decide
      have hg5 : ¬(getc st.buf (nasm_skip_spaces st.buf st.bufptr) = LBRACE) := by
        intro h; rw [hq] at h; revert h; decide
      rw [token_sel_opchar ext
        { st with bufptr := nasm_skip_spaces st.buf st.bufptr }
        { t_start := nasm_skip_spaces st.buf st.bufptr } hg1 hg2 hg3 hg4 hg5,
        opchar_semi _ _ hq]
      exact ⟨rfl, rfl⟩
  intro m
  induction m with
  | zero =>
    intro st hpb hq
    rw [iter_one]
    exact (hone st hpb hq).1
  | succ k ih =>
    intro st hpb hq
    rw [iter_succ_succ]
    obtain ⟨-, hst⟩ := hone st hpb hq
    rw [hst]
    refine ih _ (by rw [hpb]) ?_
    show getc st.buf (nasm_skip_spaces st.buf (nasm_skip_spaces st.buf st.bufptr)) = NUL ∨
      getc st.buf (nasm_skip_spaces st.buf (nasm_skip_spaces st.buf st.bufptr)) = ';'
    rw [skip_spaces_idem]
    exact hq

/-- Termination core for C1: from any no-pushback state within the line,
`buf.length + 1 - bufptr` scans suffice to reach end-of-stream. -/
theorem scan_reaches_eos (ext : ScanExt) (buf : List Char)
    (hkw : ∀ s, (ext.token_hash s).ttype ≠ TOKEN_EOS)
    (hbyte : ∀ c ∈ buf, 0 < c.toNat ∧ c.toNat < 256)
    (hunq : ∀ q, q < buf.length →
      q < (ext.unquote buf q).1 ∧ (ext.unquote buf q).1 ≤ buf.length) :
    ∀ (k : Nat) (st : ScanState), st.buf = buf → st.pushback = [] →
      st.bufptr ≤ buf.length → buf.length + 1 ≤ k + st.bufptr →
      (stdscanIter ext st k).2.t_type = TOKEN_EOS := by
  intro k
  induction k with
  | zero =>
    intro st hb hpb hle hbound
    omega
  | succ n ih =>
    intro st hb hpb hle hbound
    by_cases hQ : getc st.buf (nasm_skip_spaces st.buf st.bufptr) = NUL ∨
        getc st.buf (nasm_skip_spaces st.buf st.bufptr) = ';'
    · exact scan_eos_stable ext n st hpb hQ
    · push_neg at hQ
      obtain ⟨hnn, hnsemi⟩ := hQ
      have hcore := scan_step_core ext st {} hpb (hb ▸ hle)
        hkw (by rw [hb]; exact hbyte) (by rw [hb]; exact hunq)
      obtain ⟨hc1, hc2, hc3⟩ := hcore
      have htype : (stdscan ext st {}).tv.t_type ≠ TOKEN_EOS := by
        intro h
        rcases (hc2 h).2 with h2 | h2
        · exact hnn h2
        · exact hnsemi h2
      have hadv := hc3 htype
      cases n with
      | zero =>
        have : st.bufptr = buf.length := by omega
        have hskip : nasm_skip_spaces st.buf st.bufptr = st.bufptr := by
          apply scanFrom_idem
          have : getc st.buf st.bufptr = NUL := by
            rw [hb] at *
            exact getc_eq_nul (by omega)
          rw [this]
          decide
        rw [hskip] at hnn
        rw [hb] at hnn
        exact absurd (getc_eq_nul (by omega)) hnn
      | succ m =>
        rw [iter_succ_succ]
        refine ih (stdscan ext st {}).st ?_ ?_ ?_ ?_
        · rw [scan_frame, hb]
        · exact scan_pushback_empty ext st {} hpb
        · rw [← hb]
          exact hc1
        · omega

/-! Toward C1: the scanner's behaviour is unchanged when arbitrary bytes are
appended after the terminating NUL — it never reads past the null. -/

theorem bufSub_append (buf junk : List Char) (start n : Nat)
    (hs : start ≤ buf.length) (hn : n ≤ buf.length - start) :
    bufSub (buf ++ NUL :: junk) start n = bufSub buf start n := by
  unfold bufSub
  rw [List.drop_append_of_le_length hs,
    List.take_append_of_le_length (by rw [List.length_drop]; omega)]

theorem guard1_append (buf junk : List Char) (p : Nat) (hp : p ≤ buf.length) :
    ((nasm_isidstart (getc (buf ++ NUL :: junk) p) = true ∨
      (getc (buf ++ NUL :: junk) p = '$' ∧
        nasm_isidstart (getc (buf ++ NUL :: junk) (p + 1)) = true)) ↔
     (nasm_isidstart (getc buf p) = true ∨
      (getc buf p = '$' ∧ nasm_isidstart (getc buf (p + 1)) = true))) := by
  rw [getc_append hp]
  by_cases hd : getc buf p = '$'
  · have h1 : p < buf.length := lt_of_getc_ne (by rw [hd]; decide)
    rw [getc_append (by omega)]
  · simp [hd]

theorem guard2_append (buf junk : List Char) (p : Nat) (hp : p ≤ buf.length) :
    ((getc (buf ++ NUL :: junk) p = '$' ∧
      ¬(nasm_isnumchar (getc (buf ++ NUL :: junk) (p + 1)) = true)) ↔
     (getc buf p = '$' ∧ ¬(nasm_isnumchar (getc buf (p + 1)) = true))) := by
  rw [getc_append hp]
  by_cases hd : getc buf p = '$'
  · have h1 : p < buf.length := lt_of_getc_ne (by rw [hd]; decide)
    rw [getc_append (by omega)]
  · simp [hd]

theorem id_comps_append (buf junk : List Char) (p : Nat)
    (hg : nasm_isidstart (getc buf p) = true ∨
      (getc buf p = '$' ∧ nasm_isidstart (getc buf (p + 1)) = true))
    (hp : p ≤ buf.length) :
    id_is_sym (buf ++ NUL :: junk) p = id_is_sym buf p ∧
    id_e (buf ++ NUL :: junk) p = id_e buf p ∧
    id_text (buf ++ NUL :: junk) p = id_text buf p := by
  obtain ⟨hlo, hhi⟩ := id_e_bounds buf p hg hp
  have hsym : id_is_sym (buf ++ NUL :: junk) p = id_is_sym buf p := by
    unfold id_is_sym
    rw [getc_append hp]
  have hr : id_r (buf ++ NUL :: junk) p = id_r buf p := by
    unfold id_r
    rw [hsym]
  have hrle : id_r buf p + 1 ≤ buf.length := by
    have : id_r buf p + 1 ≤ id_e buf p ∨ id_e buf p = idloop buf (id_r buf p + 1) := by
      right; rfl
    have hge := idloop_ge buf (id_r buf p + 1)
    unfold id_e at hhi hlo
    omega
  have he : id_e (buf ++ NUL :: junk) p = id_e buf p := by
    unfold id_e
    rw [hr, idloop_append buf junk _ hrle]
  have hlen : id_len (buf ++ NUL :: junk) p = id_len buf p := by
    unfold id_len
    rw [he, hr]
  have htext : id_text (buf ++ NUL :: junk) p = id_text buf p := by
    unfold id_text id_copyLen
    rw [hlen, hr]
    have hrb : id_r buf p ≤ buf.length := by
      unfold id_e at hhi
      have := idloop_ge buf (id_r buf p + 1)
      omega
    have hcl : (if id_len buf p < IDLEN_MAX then id_len buf p else IDLEN_MAX - 1) ≤
        buf.length - id_r buf p := by
      have : id_len buf p ≤ buf.length - id_r buf p := by
        unfold id_len id_e at *
        omega
      split_ifs with hsp
      · exact this
      · omega
    exact bufSub_append buf junk _ _ hrb hcl
  exact ⟨hsym, he, htext⟩

theorem stdscan_id_append (ext : ScanExt) (buf junk : List Char) (ptr : Nat)
    (pb : List Tokenval) (ss : ScanSState) (ar : List (List Char)) (tv : Tokenval)
    (hg : nasm_isidstart (getc buf ptr) = true ∨
      (getc buf ptr = '$' ∧ nasm_isidstart (getc buf (ptr + 1)) = true))
    (hp : ptr ≤ buf.length) :
    stdscan_id ext ⟨buf ++ NUL :: junk, ptr, pb, ss, ar⟩ tv =
      withBuf (buf ++ NUL :: junk) (stdscan_id ext ⟨buf, ptr, pb, ss, ar⟩ tv) := by
  obtain ⟨hsym, he, htext⟩ := id_comps_append buf junk ptr hg hp
  have hlen : id_len (buf ++ NUL :: junk) ptr = id_len buf ptr := by
    unfold id_len id_r id_is_sym
    rw [getc_append hp, he]
  unfold stdscan_id id_st1 id_ds id_tv2 id_tv1 withBuf
  simp only [hsym, he, htext, hlen]
  split_ifs <;> rfl

theorem stdscan_dollar_append (buf junk : List Char) (ptr : Nat)
    (pb : List Tokenval) (ss : ScanSState) (ar : List (List Char)) (tv : Tokenval)
    (hd : getc buf ptr = '$') (hp : ptr ≤ buf.length) :
    stdscan_dollar ⟨buf ++ NUL :: junk, ptr, pb, ss, ar⟩ tv =
      withBuf (buf ++ NUL :: junk) (stdscan_dollar ⟨buf, ptr, pb, ss, ar⟩ tv) := by
  have h1 : ptr < buf.length := lt_of_getc_ne (by rw [hd]; decide)
  unfold stdscan_dollar withBuf
  show (if getc (buf ++ NUL :: junk) (ptr + 1) = '$' then _ else _) = _
  rw [getc_append (by omega : ptr + 1 ≤ buf.length)]
  split_ifs <;> rfl

theorem num_comps_append (buf junk : List Char) (p : Nat)
    (hg : nasm_isnumstart (getc buf p) = true) (hp : p ≤ buf.length) :
    num_hex0 (buf ++ NUL :: junk) p = num_hex0 buf p ∧
    num_ns (buf ++ NUL :: junk) p = num_ns buf p ∧
    num_isFloat (buf ++ NUL :: junk) p = num_isFloat buf p ∧
    num_text (buf ++ NUL :: junk) p = num_text buf p := by
  have h1 : p < buf.length := by
    refine lt_of_getc_ne ?_
    intro hc
    rw [hc] at hg
    exact absurd hg (by decide)
  have hh : num_hex0 (buf ++ NUL :: junk) p = num_hex0 buf p := by
    unfold num_hex0
    rw [getc_append hp]
  have hns : num_ns (buf ++ NUL :: junk) p = num_ns buf p := by
    unfold num_ns
    rw [hh]
    by_cases hx : num_hex0 buf p = true
    · rw [hx]
      simp only [if_true]
      exact numloop_append buf junk (p + 1) true false false (by omega)
    · rw [Bool.not_eq_true] at hx
      rw [hx]
      simp only [Bool.false_eq_true, if_false]
      exact numloop_append buf junk p false false false (by omega)
  have hfl : num_isFloat (buf ++ NUL :: junk) p = num_isFloat buf p := by
    unfold num_isFloat
    rw [hns]
  have htext : num_text (buf ++ NUL :: junk) p = num_text buf p := by
    unfold num_text
    rw [hns]
    refine bufSub_append buf junk p _ (by omega) ?_
    have hle : (num_ns buf p).pos ≤ buf.length := by
      unfold num_ns
      by_cases hx : num_hex0 buf p = true
      · rw [hx]
        simp only [if_true]
        exact numloop_le buf (p + 1) _ false false (by omega)
      · rw [Bool.not_eq_true] at hx
        rw [hx]
        simp only [Bool.false_eq_true, if_false]
        exact numloop_le buf p _ false false (by omega)
    omega
  exact ⟨hh, hns, hfl, htext⟩

theorem stdscan_num_append (ext : ScanExt) (buf junk : List Char) (ptr : Nat)
    (pb : List Tokenval) (ss : ScanSState) (ar : List (List Char)) (tv : Tokenval)
    (hg : nasm_isnumstart (getc buf ptr) = true) (hp : ptr ≤ buf.length) :
    stdscan_num ext ⟨buf ++ NUL :: junk, ptr, pb, ss, ar⟩ tv =
      withBuf (buf ++ NUL :: junk) (stdscan_num ext ⟨buf, ptr, pb, ss, ar⟩ tv) := by
  obtain ⟨hh, hns, hfl, htext⟩ := num_comps_append buf junk ptr hg hp
  unfold stdscan_num withBuf
  simp only [hh, hns, hfl, htext]
  split_ifs <;> rfl

theorem stdscan_str_append (ext : ScanExt) (buf junk : List Char) (ptr : Nat)
    (pb : List Tokenval) (ss : ScanSState) (ar : List (List Char)) (tv : Tokenval)
    (hq : getc buf ptr = QUOTE1 ∨ getc buf ptr = QUOTE2 ∨ getc buf ptr = BACKQUOTE)
    (hp : ptr ≤ buf.length)
    (hunq : ∀ q, q < buf.length →
      q < (ext.unquote buf q).1 ∧ (ext.unquote buf q).1 ≤ buf.length)
    (hqext : ∀ q, q < buf.length →
      ext.unquote (buf ++ NUL :: junk) q = ext.unquote buf q) :
    stdscan_str ext ⟨buf ++ NUL :: junk, ptr, pb, ss, ar⟩ tv =
      withBuf (buf ++ NUL :: junk) (stdscan_str ext ⟨buf, ptr, pb, ss, ar⟩ tv) := by
  have h1 : ptr < buf.length := by
    refine lt_of_getc_ne ?_
    rcases hq with h | h | h <;> rw [h] <;> decide
  obtain ⟨hu1, hu2⟩ := hunq ptr h1
  unfold stdscan_str withBuf
  simp only [hqext ptr h1, getc_append hp, getc_append hu2]
  split_ifs <;> rfl

theorem brc_comps_append (buf junk : List Char) (p : Nat)
    (hb : getc buf p = LBRACE) (hp : p ≤ buf.length) :
    brc_r (buf ++ NUL :: junk) p = brc_r buf p ∧
    brc_e (buf ++ NUL :: junk) p = brc_e buf p ∧
    brc_len (buf ++ NUL :: junk) p = brc_len buf p ∧
    brc_content (buf ++ NUL :: junk) p = brc_content buf p ∧
    brc_close (buf ++ NUL :: junk) p = brc_close buf p := by
  have h1 : p < buf.length := lt_of_getc_ne (by rw [hb]; decide)
  have hr : brc_r (buf ++ NUL :: junk) p = brc_r buf p := by
    unfold brc_r
    exact skip_spaces_append buf junk (p + 1) (by omega)
  have hrle : brc_r buf p ≤ buf.length := skip_spaces_le buf (p + 1) (by omega)
  have he : brc_e (buf ++ NUL :: junk) p = brc_e buf p := by
    unfold brc_e
    rw [hr]
    exact brcloop_append buf junk _ hrle
  have hele : brc_e buf p ≤ buf.length := brcloop_le buf _ hrle
  have hrge : brc_r buf p ≤ brc_e buf p := brcloop_ge buf _
  have hlen : brc_len (buf ++ NUL :: junk) p = brc_len buf p := by
    unfold brc_len
    rw [hr, he]
  have hcont : brc_content (buf ++ NUL :: junk) p = brc_content buf p := by
    unfold brc_content
    rw [hr, hlen]
    refine bufSub_append buf junk _ _ hrle ?_
    unfold brc_len
    omega
  have hclose : brc_close (buf ++ NUL :: junk) p = brc_close buf p := by
    unfold brc_close
    rw [he]
    exact skip_spaces_append buf junk _ hele
  exact ⟨hr, he, hlen, hcont, hclose⟩

theorem stdscan_parse_braces_append (ext : ScanExt) (buf junk : List Char) (ptr : Nat)
    (pb : List Tokenval) (ss : ScanSState) (ar : List (List Char)) (tv : Tokenval)
    (hb : getc buf ptr = LBRACE) (hp : ptr ≤ buf.length) :
    stdscan_parse_braces ext ⟨buf ++ NUL :: junk, ptr, pb, ss, ar⟩ tv =
      withBuf (buf ++ NUL :: junk) (stdscan_parse_braces ext ⟨buf, ptr, pb, ss, ar⟩ tv) := by
  obtain ⟨hr, he, hlen, hcont, hclose⟩ := brc_comps_append buf junk ptr hb hp
  have hclosele : brc_close buf ptr ≤ buf.length := by
    have h1 : ptr < buf.length := lt_of_getc_ne (by rw [hb]; decide)
    have hrle : brc_r buf ptr ≤ buf.length := skip_spaces_le buf (ptr + 1) (by omega)
    exact skip_spaces_le buf _ (brcloop_le buf _ hrle)
  have harena : brc_arena ⟨buf ++ NUL :: junk, ptr, pb, ss, ar⟩ =
      brc_arena ⟨buf, ptr, pb, ss, ar⟩ := by
    unfold brc_arena
    show (if brc_len (buf ++ NUL :: junk) ptr ≤ MAX_KEYWORD then
        brc_content (buf ++ NUL :: junk) ptr :: ar else ar) = _
    rw [hlen, hcont]
  have htv1 : brc_tv1 (buf ++ NUL :: junk) ptr tv = brc_tv1 buf ptr tv := by
    unfold brc_tv1
    rw [hlen, hcont]
  unfold stdscan_parse_braces withBuf stdscan_handle_brace
  simp only [hclose, hlen, hcont, htv1, harena, getc_append hclosele]
  split_ifs <;> rfl

theorem matchAt_append (buf junk : List Char) (p : Nat) (s : List Char)
    (hs : ∀ c ∈ s, c ≠ NUL) (hp : p ≤ buf.length) :
    matchAt (buf ++ NUL :: junk) p s = matchAt buf p s := by
  induction s generalizing p with
  | nil => rfl
  | cons c cs ih =>
    unfold matchAt
    rw [getc_append hp]
    by_cases hc : getc buf p == c
    · have hcc : getc buf p = c := by
        have := of_decide_eq_true hc
        exact this
      have hlt : p < buf.length := lt_of_getc_ne (by rw [hcc]; exact hs c (by simp))
      rw [ih (p + 1) (fun d hd => hs d (List.mem_cons_of_mem c hd)) (by omega)]
    · rw [Bool.not_eq_true] at hc
      rw [hc, Bool.false_and, Bool.false_and]

theorem opLookup_append (buf junk : List Char) (p : Nat) (tbl : List (List Char × Int))
    (htbl : ∀ e ∈ tbl, ∀ c ∈ e.1, c ≠ NUL) (hp : p ≤ buf.length) :
    opLookup (buf ++ NUL :: junk) p tbl = opLookup buf p tbl := by
  induction tbl with
  | nil => rfl
  | cons e rest ih =>
    unfold opLookup
    rw [matchAt_append buf junk p e.1 (htbl e (by simp)) hp]
    split_ifs with h
    · rfl
    · exact ih (fun d hd => htbl d (List.mem_cons_of_mem e hd))

theorem stdscan_opchar_append (buf junk : List Char) (ptr : Nat)
    (pb : List Tokenval) (ss : ScanSState) (ar : List (List Char)) (tv : Tokenval)
    (hp : ptr ≤ buf.length) :
    stdscan_opchar ⟨buf ++ NUL :: junk, ptr, pb, ss, ar⟩ tv =
      withBuf (buf ++ NUL :: junk) (stdscan_opchar ⟨buf, ptr, pb, ss, ar⟩ tv) := by
  unfold stdscan_opchar withBuf
  show (if getc (buf ++ NUL :: junk) ptr = ';' then _ else _) = _
  rw [getc_append hp, opLookup_append buf junk ptr opTable (by decide) hp]
  split_ifs with h
  · rfl
  · rcases hl : opLookup buf ptr opTable with - | nty
    · simp only [hl]
    · simp only [hl]

theorem stdscan_token_append (ext : ScanExt) (buf junk : List Char) (ptr : Nat)
    (pb : List Tokenval) (ss : ScanSState) (ar : List (List Char)) (tv : Tokenval)
    (hp : ptr ≤ buf.length)
    (hunq : ∀ q, q < buf.length →
      q < (ext.unquote buf q).1 ∧ (ext.unquote buf q).1 ≤ buf.length)
    (hqext : ∀ q, q < buf.length →
      ext.unquote (buf ++ NUL :: junk) q = ext.unquote buf q) :
    stdscan_token ext ⟨buf ++ NUL :: junk, ptr, pb, ss, ar⟩ tv =
      withBuf (buf ++ NUL :: junk) (stdscan_token ext ⟨buf, ptr, pb, ss, ar⟩ tv) := by
  unfold stdscan_token
  simp only [guard1_append buf junk ptr hp, guard2_append buf junk ptr hp]
  simp only [getc_append hp]
  split_ifs with h1 h2 h3 h4 h5
  · exact stdscan_id_append ext buf junk ptr pb ss ar tv h1 hp
  · exact stdscan_dollar_append buf junk ptr pb ss ar tv h2.1 hp
  · exact stdscan_num_append ext buf junk ptr pb ss ar tv h3 hp
  · exact stdscan_str_append ext buf junk ptr pb ss ar tv h4 hp hunq hqext
  · exact stdscan_parse_braces_append ext buf junk ptr pb ss ar tv h5 hp
  · exact stdscan_opchar_append buf junk ptr pb ss ar tv hp

theorem recordLen_withBuf (b : List Char) (r : TokRes) :
    recordLen (withBuf b r) = withBuf b (recordLen r) := rfl

theorem stdscan_append (ext : ScanExt) (buf junk : List Char) (ptr : Nat)
    (pb : List Tokenval) (ss : ScanSState) (ar : List (List Char)) (tv : Tokenval)
    (hp : ptr ≤ buf.length)
    (hunq : ∀ q, q < buf.length →
      q < (ext.unquote buf q).1 ∧ (ext.unquote buf q).1 ≤ buf.length)
    (hqext : ∀ q, q < buf.length →
      ext.unquote (buf ++ NUL :: junk) q = ext.unquote buf q) :
    stdscan ext ⟨buf ++ NUL :: junk, ptr, pb, ss, ar⟩ tv =
      withBuf (buf ++ NUL :: junk) (stdscan ext ⟨buf, ptr, pb, ss, ar⟩ tv) := by
  cases pb with
  | cons ts rest =>
    unfold stdscan withBuf
    rfl
  | nil =>
    unfold stdscan
    have hsk := skip_spaces_append buf junk ptr hp
    have hskle := skip_spaces_le buf ptr hp
    show (if getc (buf ++ NUL :: junk) (nasm_skip_spaces (buf ++ NUL :: junk) ptr) = NUL
        then _ else _) = _
    rw [hsk, getc_append hskle]
    split_ifs with h
    · rfl
    · have ht := stdscan_token_append ext buf junk (nasm_skip_spaces buf ptr) [] ss ar
        { t_start := nasm_skip_spaces buf ptr } hskle hunq hqext
      show recordLen (stdscan_token ext
          ⟨buf ++ NUL :: junk, nasm_skip_spaces buf ptr, [], ss, ar⟩
          { t_start := nasm_skip_spaces buf ptr }) = _
      rw [ht, recordLen_withBuf]

theorem unquote_spec_bounds (buf : List Char) (q : Nat) (h : q < buf.length) :
    q < (unquote_spec buf q).1 ∧ (unquote_spec buf q).1 ≤ buf.length := by
  unfold unquote_spec
  constructor
  · have := le_scanFrom (fun c => !(c == getc buf q) && !(c == NUL)) buf (q + 1)
    simpa using by omega
  · have := scanFrom_le (fun c => !(c == getc buf q) && !(c == NUL)) buf (q + 1) (by omega)
    simpa using this

theorem unquote_spec_append (buf junk : List Char) (q : Nat) (h : q < buf.length) :
    unquote_spec (buf ++ NUL :: junk) q = unquote_spec buf q := by
  simp only [unquote_spec]
  rw [getc_append (by omega)]
  rw [scanFrom_append (by simp) buf junk (q + 1) (by omega)]

/-- C1: for every input line, after `stdscan_reset buffer` a sequence of
`buf.length + 1` repeated `stdscan` calls reaches the end-of-stream token;
every non-EOS scan from a no-pushback state strictly advances the cursor
while keeping it inside the line, an EOS outcome advances only over the
leading whitespace (the cursor stops on the terminating NUL or on the `;`
comment character); and the scanner never reads a character past the line's
terminating null: appending arbitrary bytes after the NUL changes nothing
but the stored buffer. -/
theorem scanner_progress_C1 (ext : ScanExt) (buf junk : List Char) (ptr : Nat)
    (ar : List (List Char)) (tv : Tokenval)
    (hbyte : ∀ c ∈ buf, 0 < c.toNat ∧ c.toNat < 256)
    (hkw : ∀ s, (ext.token_hash s).ttype ≠ TOKEN_EOS)
    (hunq : ∀ q, q < buf.length →
      q < (ext.unquote buf q).1 ∧ (ext.unquote buf q).1 ≤ buf.length)
    (hqext : ∀ q, q < buf.length →
      ext.unquote (buf ++ NUL :: junk) q = ext.unquote buf q)
    (hptr : ptr ≤ buf.length) :
    (stdscanIter ext (stdscan_reset buf) (buf.length + 1)).2.t_type = TOKEN_EOS ∧
    (stdscan ext ⟨buf, ptr, [], ScanSState.ss_init, ar⟩ tv).st.bufptr ≤ buf.length ∧
    ((stdscan ext ⟨buf, ptr, [], ScanSState.ss_init, ar⟩ tv).tv.t_type = TOKEN_EOS →
      ((stdscan ext ⟨buf, ptr, [], ScanSState.ss_init, ar⟩ tv).st.bufptr =
        nasm_skip_spaces buf ptr ∧
       (getc buf (nasm_skip_spaces buf ptr) = NUL ∨
        getc buf (nasm_skip_spaces buf ptr) = ';'))) ∧
    ((stdscan ext ⟨buf, ptr, [], ScanSState.ss_init, ar⟩ tv).tv.t_type ≠ TOKEN_EOS →
      ptr < (stdscan ext ⟨buf, ptr, [], ScanSState.ss_init, ar⟩ tv).st.bufptr) ∧
    stdscan ext ⟨buf ++ NUL :: junk, ptr, [], ScanSState.ss_init, ar⟩ tv =
      withBuf (buf ++ NUL :: junk) (stdscan ext ⟨buf, ptr, [], ScanSState.ss_init, ar⟩ tv) := by
  obtain ⟨hc1, hc2, hc3⟩ := scan_step_core ext
    ⟨buf, ptr, [], ScanSState.ss_init, ar⟩ tv rfl hptr hkw hbyte hunq
  refine ⟨?_, hc1, hc2, hc3, ?_⟩
  · exact scan_reaches_eos ext buf hkw hbyte hunq (buf.length + 1) (stdscan_reset buf)
      rfl rfl (Nat.zero_le _) (Nat.le_add_right _ _)
  · exact stdscan_append ext buf junk ptr [] ScanSState.ss_init ar tv hptr hunq hqext

theorem scanner_progress_C1_witness :
    (stdscanIter ext_spec (stdscan_reset ['a', 'b'])
      (['a', 'b'].length + 1)).2.t_type = TOKEN_EOS ∧
    (stdscan ext_spec ⟨['a', 'b'], 0, [], ScanSState.ss_init, []⟩
      {}).st.bufptr ≤ ['a', 'b'].length ∧
    ((stdscan ext_spec ⟨['a', 'b'], 0, [], ScanSState.ss_init, []⟩
        {}).tv.t_type = TOKEN_EOS →
      ((stdscan ext_spec ⟨['a', 'b'], 0, [], ScanSState.ss_init, []⟩
          {}).st.bufptr = nasm_skip_spaces ['a', 'b'] 0 ∧
       (getc ['a', 'b'] (nasm_skip_spaces ['a', 'b'] 0) = NUL ∨
        getc ['a', 'b'] (nasm_skip_spaces ['a', 'b'] 0) = ';'))) ∧
    ((stdscan ext_spec ⟨['a', 'b'], 0, [], ScanSState.ss_init, []⟩
        {}).tv.t_type ≠ TOKEN_EOS →
      0 < (stdscan ext_spec ⟨['a', 'b'], 0, [], ScanSState.ss_init, []⟩
        {}).st.bufptr) ∧
    stdscan ext_spec ⟨['a', 'b'] ++ NUL :: ['c'], 0, [], ScanSState.ss_init, []⟩ {} =
      withBuf (['a', 'b'] ++ NUL :: ['c'])
        (stdscan ext_spec ⟨['a', 'b'], 0, [], ScanSState.ss_init, []⟩ {}) :=
  scanner_progress_C1 ext_spec ['a', 'b'] ['c'] 0 [] {}
    (by decide)
    (fun s => show TOKEN_ID ≠ TOKEN_EOS by decide)
    (fun q h => unquote_spec_bounds ['a', 'b'] q h)
    (fun q h => unquote_spec_append ['a', 'b'] ['c'] q h)
    (by decide)


/-- C8: for a quoted string, after the external unescape routine advances the
cursor, a character there different from the opening quote yields an
invalid-string token with the cursor left at that position; otherwise the
cursor moves past the closing quote and a string token is emitted whose text
pointer aliases the line buffer at the opening quote (no arena copy is made)
and whose secondary payload is the decoded length.  The line consisting of
`'abc"` yields the invalid-string outcome. -/
theorem quoted_string_C8 (ext : ScanExt) (st : ScanState) (tv : Tokenval)
    (hq : getc st.buf st.bufptr = QUOTE1 ∨ getc st.buf st.bufptr = QUOTE2 ∨
      getc st.buf st.bufptr = BACKQUOTE) :
    ((¬(getc st.buf (ext.unquote st.buf st.bufptr).1 = getc st.buf st.bufptr)) →
      ((stdscan_token ext st tv).tv.t_type = TOKEN_ERRSTR ∧
       (stdscan_token ext st tv).st.bufptr = (ext.unquote st.buf st.bufptr).1)) ∧
    ((getc st.buf (ext.unquote st.buf st.bufptr).1 = getc st.buf st.bufptr) →
      ((stdscan_token ext st tv).tv.t_type = TOKEN_STR ∧
       (stdscan_token ext st tv).st.bufptr = (ext.unquote st.buf st.bufptr).1 + 1 ∧
       (stdscan_token ext st tv).tv.t_charptr = CharPtr.buf st.bufptr ∧
       (stdscan_token ext st tv).tv.t_inttwo = (ext.unquote st.buf st.bufptr).2 ∧
       (stdscan_token ext st tv).st.arena = st.arena)) ∧
    (stdscan ext_spec (stdscan_reset [QUOTE1, 'a', 'b', 'c', QUOTE2]) {}).tv.t_type =
      TOKEN_ERRSTR ∧
    (stdscan ext_spec (stdscan_reset [QUOTE1, 'a', 'b', 'c', QUOTE2]) {}).st.bufptr = 5 := by
  have hg1 : ¬(nasm_isidstart (getc st.buf st.bufptr) = true ∨
      (getc st.buf st.bufptr = '$' ∧ nasm_isidstart (getc st.buf (st.bufptr + 1)) = true)) := by
    rintro (h | ⟨h, -⟩) <;> rcases hq with hq | hq | hq <;> rw [hq] at h <;> revert h <;> decide
  have hg2 : ¬(getc st.buf st.bufptr = '$' ∧
      ¬(nasm_isnumchar (getc st.buf (st.bufptr + 1)) = true)) := by
    rintro ⟨h, -⟩
    rcases hq with hq | hq | hq <;> rw [hq] at h <;> revert h <;> decide
  have hg3 : ¬(nasm_isnumstart (getc st.buf st.bufptr) = true) := by
    intro h
    rcases hq with hq | hq | hq <;> rw [hq] at h <;> revert h <;> decide
  rw [token_sel_str ext st tv hg1 hg2 hg3 hq]
  refine ⟨?_, ?_, by decide, by decide⟩
  · intro hne
    unfold stdscan_str
    rw [if_pos hne]
    exact ⟨rfl, rfl⟩
  · intro heq
    unfold stdscan_str
    rw [if_neg (by simp [heq])]
    exact ⟨rfl, rfl, rfl, rfl, rfl⟩

/-- C8 witness: the claim instantiated on the mismatched line `'abc"`. -/
theorem quoted_string_C8_witness :
    ((¬(getc [QUOTE1, 'a', 'b', 'c', QUOTE2]
        (ext_spec.unquote [QUOTE1, 'a', 'b', 'c', QUOTE2] 0).1 =
        getc [QUOTE1, 'a', 'b', 'c', QUOTE2] 0)) →
      ((stdscan_token ext_spec (stdscan_reset [QUOTE1, 'a', 'b', 'c', QUOTE2]) {}).tv.t_type =
         TOKEN_ERRSTR ∧
       (stdscan_token ext_spec (stdscan_reset [QUOTE1, 'a', 'b', 'c', QUOTE2]) {}).st.bufptr =
         (ext_spec.unquote [QUOTE1, 'a', 'b', 'c', QUOTE2] 0).1)) ∧
    ((getc [QUOTE1, 'a', 'b', 'c', QUOTE2]
        (ext_spec.unquote [QUOTE1, 'a', 'b', 'c', QUOTE2] 0).1 =
        getc [QUOTE1, 'a', 'b', 'c', QUOTE2] 0) →
      ((stdscan_token ext_spec (stdscan_reset [QUOTE1, 'a', 'b', 'c', QUOTE2]) {}).tv.t_type =
         TOKEN_STR ∧
       (stdscan_token ext_spec (stdscan_reset [QUOTE1, 'a', 'b', 'c', QUOTE2]) {}).st.bufptr =
         (ext_spec.unquote [QUOTE1, 'a', 'b', 'c', QUOTE2] 0).1 + 1 ∧
       (stdscan_token ext_spec (stdscan_reset [QUOTE1, 'a', 'b', 'c', QUOTE2]) {}).tv.t_charptr =
         CharPtr.buf 0 ∧
       (stdscan_token ext_spec (stdscan_reset [QUOTE1, 'a', 'b', 'c', QUOTE2]) {}).tv.t_inttwo =
         (ext_spec.unquote [QUOTE1, 'a', 'b', 'c', QUOTE2] 0).2 ∧
       (stdscan_token ext_spec (stdscan_reset [QUOTE1, 'a', 'b', 'c', QUOTE2]) {}).st.arena =
         (stdscan_reset [QUOTE1, 'a', 'b', 'c', QUOTE2]).arena)) ∧
    (stdscan ext_spec (stdscan_reset [QUOTE1, 'a', 'b', 'c', QUOTE2]) {}).tv.t_type =
      TOKEN_ERRSTR ∧
    (stdscan ext_spec (stdscan_reset [QUOTE1, 'a', 'b', 'c', QUOTE2]) {}).st.bufptr = 5 :=
  quoted_string_C8 ext_spec (stdscan_reset [QUOTE1, 'a', 'b', 'c', QUOTE2]) {} (by decide)
